import Mathlib

/-!
# Date formatter handler

A verification development for `date-formatter/src/app.js`:

```js
const moment = require('moment');
exports.lambdaHandler = async (event, context) => {
  try {
    const { date } = event;
    const formattedDate = moment(date).format('DD MMM YYYY');
    console.log(formattedDate);
  } catch (err) {
    console.log(err);
  }
};
```

The handler is embedded as a state-passing function over an explicit process
state: the state of the library and the two streams of the console, the lines of
`console.log` and the lines of `console.warn`.  It is parametric in the date
library it calls (`MomentLib`), so that every statement about the handler's own
control flow holds whatever the library does, including when the library throws.
The statements that depend on what `moment` computes are settled against
`momentJs`, an embedding of the fragment of moment.js (2.30 line) and of the
ECMAScript `Date` arithmetic that the call `moment(date).format('DD MMM YYYY')`
runs through.
-/

namespace DateFormatter

/-! ## JavaScript values -/

/-- JavaScript values that an event, a field of an event, or a thrown value can be.
Numbers are the integral ones (millisecond counts); `date` is a `Date` object with its
time value (`none` is the NaN time value of an invalid `Date`); `error` is an `Error`
object with its `name` and `message`; an `object` is the list of its own properties, and
a key listed twice stands for its first entry. -/
inductive JsValue where
  | undefined : JsValue
  | null : JsValue
  | bool (b : Bool) : JsValue
  | number (n : Int) : JsValue
  | string (s : String) : JsValue
  | date (t : Option Int) : JsValue
  | error (name : String) (message : String) : JsValue
  | array (items : List JsValue) : JsValue
  | object (fields : List (String × JsValue)) : JsValue

/-- Settled state of the promise an `async` function returns. -/
inductive Completion where
  | fulfilled (value : JsValue) : Completion
  | rejected (reason : JsValue) : Completion

/-- Whether the promise fulfilled. -/
def Completion.isFulfilled : Completion → Bool
  | .fulfilled _ => true
  | .rejected _ => false

/-- Process state seen by one invocation: `lib` is whatever the date library and the host
keep between calls (clock, one-shot flags); `stdout` holds the lines written with
`console.log` and `stderr` the lines written with `console.warn`, oldest line first.  The
two streams together are the console, which the hosting runtime collects into one log. -/
structure Proc (σ : Type) where
  lib : σ
  stdout : List JsValue
  stderr : List JsValue

/-- What a call into the library comes back with: the value returned or thrown, the new
state of the library, and the lines the library wrote with `console.warn` during the call. -/
structure Returned (σ α : Type) where
  result : Except JsValue α
  state : σ
  warnings : List JsValue

/-- A JavaScript computation: runs on a process state and either completes normally with a
value or throws a value; the state changes made before a throw persist. -/
def Js (σ α : Type) : Type := Proc σ → Except JsValue α × Proc σ

/-- Sequencing: a throw in the first computation skips the rest. -/
def Js.bind {σ α β : Type} (m : Js σ α) (f : α → Js σ β) : Js σ β := fun p =>
  match m p with
  | (.ok a, q) => f a q
  | (.error e, q) => (.error e, q)

/-- The `try { body } catch (err) { handler }` statement. -/
def Js.tryCatch {σ α : Type} (body : Js σ α) (handler : JsValue → Js σ α) : Js σ α := fun p =>
  match body p with
  | (.ok a, q) => (.ok a, q)
  | (.error e, q) => handler e q

/-- A pure step that may throw. -/
def Js.ofExcept {σ α : Type} (r : Except JsValue α) : Js σ α := fun p => (r, p)

/-- A call into the library: it runs on the library's own state, and what it writes to the
console it writes with `console.warn` (as moment does for its deprecation warnings); the
lines go to `stderr`. -/
def Js.call {σ α : Type} (f : σ → Returned σ α) : Js σ α := fun p =>
  ((f p.lib).result,
    { p with lib := (f p.lib).state, stderr := p.stderr ++ (f p.lib).warnings })

/-- The call `console.log(v)`: appends one line to `stdout`. -/
def consoleLog {σ : Type} (v : JsValue) : Js σ Unit := fun p =>
  (.ok (), { p with stdout := p.stdout ++ [v] })

/-- Invocation of an `async` function whose body has no `return`: the promise fulfils with
`undefined` when the body completes, and rejects with the thrown value when it throws. -/
def async {σ : Type} (body : Js σ Unit) (p : Proc σ) : Completion × Proc σ :=
  match body p with
  | (.ok _, q) => (.fulfilled .undefined, q)
  | (.error e, q) => (.rejected e, q)

/-- Property read `o[key]` on a value that is not `null` or `undefined`: the own field of an
object, `undefined` when there is none and on primitives, arrays, dates and errors (none of
which has a `date` property, the only key the handler reads). -/
def JsValue.get (o : JsValue) (key : String) : JsValue :=
  match o with
  | .object fields => (fields.lookup key).getD .undefined
  | _ => .undefined

/-- Whether a value is `null` or `undefined`. -/
def JsValue.isNullish : JsValue → Bool
  | .null => true
  | .undefined => true
  | _ => false

/-- The binding `const { date } = event`: a `TypeError` when `event` is `null` or `undefined`,
otherwise the value of `event.date`. -/
def destructureDate (event : JsValue) : Except JsValue JsValue :=
  match event with
  | .null => .error (.error "TypeError"
      "Cannot destructure property 'date' of 'event' as it is null.")
  | .undefined => .error (.error "TypeError"
      "Cannot destructure property 'date' of 'event' as it is undefined.")
  | e => .ok (e.get "date")

/-- The two library entry points the handler uses: `moment(input)` builds a moment object of
some type `μ`, and `m.format(pattern)` renders it.  Both run on the library state `σ`,
either return or throw, and may write warnings to the console. -/
structure MomentLib (σ μ : Type) where
  moment : JsValue → σ → Returned σ μ
  format : μ → String → σ → Returned σ String

/-- The parse-and-format step (app.js lines 4-5): `const { date } = event` and
`const formattedDate = moment(date).format('DD MMM YYYY')`; its value is `formattedDate`. -/
def parseAndFormat {σ μ : Type} (L : MomentLib σ μ) (event : JsValue) : Js σ String :=
  Js.bind (Js.ofExcept (destructureDate event)) fun date =>
  Js.bind (Js.call (L.moment date)) fun m =>
  Js.call (L.format m "DD MMM YYYY")

/-- The body of the `try` block of `lambdaHandler` (app.js lines 4-6): the parse-and-format
step, then `console.log(formattedDate)`. -/
def tryBlock {σ μ : Type} (L : MomentLib σ μ) (event : JsValue) : Js σ Unit :=
  Js.bind (parseAndFormat L event) fun formattedDate =>
  consoleLog (.string formattedDate)

/-- The handler `exports.lambdaHandler = async (event, context) => { try ... catch ... }`
(app.js lines 2-10). -/
def lambdaHandler {σ μ : Type} (L : MomentLib σ μ) (event _context : JsValue) (p : Proc σ) :
    Completion × Proc σ :=
  async (Js.tryCatch (tryBlock L event) fun err => consoleLog err) p

/-! ## ECMAScript time values

The arithmetic of ECMA-262 "Time Values and Time Range" that `Date` runs on.  A time value is
an integral number of milliseconds since the epoch, or NaN (`none`). -/

/-- Milliseconds in a day. -/
def msPerDay : Int := 86400000

/-- Day number of a time value: `floor(t / msPerDay)`. -/
def Day (t : Int) : Int := t / msPerDay

/-- Milliseconds elapsed within the day: `t modulo msPerDay`. -/
def TimeWithinDay (t : Int) : Int := t % msPerDay

/-- Number of days in year `y` of the proleptic Gregorian calendar. -/
def DaysInYear (y : Int) : Int :=
  if y % 4 ≠ 0 then 365
  else if y % 100 ≠ 0 then 366
  else if y % 400 ≠ 0 then 365
  else 366

/-- Day number of the first day of year `y`. -/
def DayFromYear (y : Int) : Int :=
  365 * (y - 1970) + (y - 1969) / 4 - (y - 1901) / 100 + (y - 1601) / 400

/-- Time value of the start of year `y`. -/
def TimeFromYear (y : Int) : Int := msPerDay * DayFromYear y

/-- The year a time value falls in: ECMA-262 defines it as the largest `y` with
`TimeFromYear y ≤ t`.  It is computed here from the mean year length, which is off by at most
one year, and then adjusted; `YearFromTime_le` and `YearFromTime_lt` show that the result is
the year of the definition. -/
def YearFromTime (t : Int) : Int :=
  let y := 1970 + (Day t * 400) / 146097
  if DayFromYear (y + 1) ≤ Day t then y + 1
  else if DayFromYear y ≤ Day t then y
  else y - 1

/-- Leap-year indicator of the year of `t`: 1 in a leap year, 0 otherwise. -/
def InLeapYear (t : Int) : Int :=
  if DaysInYear (YearFromTime t) = 365 then 0 else 1

/-- Zero-based day of the year. -/
def DayWithinYear (t : Int) : Int := Day t - DayFromYear (YearFromTime t)

/-- Zero-based month of a time value (the table of ECMA-262). -/
def MonthFromTime (t : Int) : Int :=
  let d := DayWithinYear t
  let l := InLeapYear t
  if d < 31 then 0
  else if d < 59 + l then 1
  else if d < 90 + l then 2
  else if d < 120 + l then 3
  else if d < 151 + l then 4
  else if d < 181 + l then 5
  else if d < 212 + l then 6
  else if d < 243 + l then 7
  else if d < 273 + l then 8
  else if d < 304 + l then 9
  else if d < 334 + l then 10
  else 11

/-- Day of the month (1-based) of a time value (the table of ECMA-262). -/
def DateFromTime (t : Int) : Int :=
  let d := DayWithinYear t
  let l := InLeapYear t
  let m := MonthFromTime t
  if m = 0 then d + 1
  else if m = 1 then d - 30
  else if m = 2 then d - 58 - l
  else if m = 3 then d - 89 - l
  else if m = 4 then d - 119 - l
  else if m = 5 then d - 150 - l
  else if m = 6 then d - 180 - l
  else if m = 7 then d - 211 - l
  else if m = 8 then d - 242 - l
  else if m = 9 then d - 272 - l
  else if m = 10 then d - 303 - l
  else d - 333 - l

/-- Milliseconds of a time of day. -/
def MakeTime (hour min sec ms : Int) : Int :=
  hour * 3600000 + min * 60000 + sec * 1000 + ms

/-- Days from the start of a year to the start of its zero-based month `mn`, with `l` the
leap-year indicator of the year. -/
def daysBeforeMonth (mn l : Int) : Int :=
  if mn = 0 then 0
  else if mn = 1 then 31
  else if mn = 2 then 59 + l
  else if mn = 3 then 90 + l
  else if mn = 4 then 120 + l
  else if mn = 5 then 151 + l
  else if mn = 6 then 181 + l
  else if mn = 7 then 212 + l
  else if mn = 8 then 243 + l
  else if mn = 9 then 273 + l
  else if mn = 10 then 304 + l
  else 334 + l

/-- Day number of a year, month and day of month; months outside 0..11 carry into the year.
ECMA-262 takes the day number of the time value whose year is `ym`, month `mn` and date 1, and
adds `date - 1`; that day number is `DayFromYear ym + daysBeforeMonth mn l`. -/
def MakeDay (year month date : Int) : Int :=
  let ym := year + month / 12
  let mn := month % 12
  DayFromYear ym + daysBeforeMonth mn (if DaysInYear ym = 365 then 0 else 1) + date - 1

/-- Time value of a day number and a time within the day. -/
def MakeDate (day time : Int) : Int := day * msPerDay + time

/-- Range check for time values: NaN beyond 8.64e15 ms from the epoch. -/
def TimeClip (time : Int) : Option Int :=
  if time < -8640000000000000 ∨ 8640000000000000 < time then none else some time

/-- Local time of a UTC time value `t`: `t + LocalTZA(t, true)`, where `tza t isUTC` is the
offset of the local zone in milliseconds at the instant `t`, `t` being read as a UTC time
value when `isUTC` is true and as a local time otherwise. -/
def LocalTime (tza : Int → Bool → Int) (t : Int) : Int := t + tza t true

/-- UTC time value of a local time `t`: `t - LocalTZA(t, false)`. -/
def UTC (tza : Int → Bool → Int) (t : Int) : Int := t - tza t false

/-- The constructor `new Date(year, month, date, hours, minutes, seconds, ms)`: the
components are local time, and years 0..99 mean 1900..1999. -/
def newDate (tza : Int → Bool → Int) (year month date hours minutes seconds ms : Int) :
    Option Int :=
  let yr := if 0 ≤ year ∧ year ≤ 99 then 1900 + year else year
  TimeClip (UTC tza (MakeDate (MakeDay yr month date) (MakeTime hours minutes seconds ms)))

/-- The method `getFullYear()`: NaN for an invalid `Date`. -/
def getFullYear (tza : Int → Bool → Int) (d : Option Int) : Option Int :=
  d.map fun t => YearFromTime (LocalTime tza t)

/-- The method `setFullYear(year)`: keeps the local month, day of month and time of day. -/
def setFullYear (tza : Int → Bool → Int) (d : Option Int) (year : Int) : Option Int :=
  let t := match d with
    | none => 0
    | some t => LocalTime tza t
  TimeClip (UTC tza (MakeDate (MakeDay year (MonthFromTime t) (DateFromTime t)) (TimeWithinDay t)))

/-! ## The moment library

The fragment of moment.js behind `moment(date).format('DD MMM YYYY')`, with the names of
the library's own functions.  What the fragment leaves out is taken from `Host` as a parameter,
so that every statement below holds whatever those parts compute. -/

/-- What the model takes as given.
* `LocalTZA`: the offset `LocalTZA(t, isUTC)` of the host's local time zone from UTC in
  milliseconds, at the instant `t` read as a UTC time value (`isUTC` true) or as a local time
  (`isUTC` false); ECMA-262 has a local time that a transition skips read with the offset
  before the transition;
* `otherFormats`: what moment's own recognisers other than the plain calendar date (the
  remaining ISO 8601 forms, RFC 2822, the ASP.NET form) make of a string: `none` when none of
  them matches, otherwise the time value built (`some none` for a string that matches and
  names no valid date);
* `dateParse`: the host's `new Date(string)`, which ECMA-262 leaves implementation-defined
  for strings outside its own formats;
* `fromUnits`: moment's construction from a non-empty array or object of units, given the
  clock reading from which it fills in missing units;
* `copyDate`: for a moment-like object whose `_d` is a `Date`, the time value of the copy
  (`none` when the parsing flags the object carries make it invalid), or the value thrown
  while those flags are read;
* `deprecationWarning`: the text that the deprecation warning of the fallback hands to
  `console.warn` for an input: the message, the dump of the arguments and a stack trace. -/
structure Host where
  LocalTZA : Int → Bool → Int
  otherFormats : String → Option (Option Int)
  dateParse : String → Option Int
  fromUnits : JsValue → Int → Option Int
  copyDate : JsValue → Except JsValue (Option Int)
  deprecationWarning : String → String

/-- State that the library and the host keep across invocations: the clock reading
(`Date.now()`), and whether the one-shot deprecation warning of `createFromInputFallback`
has been issued (`firstTime` of `deprecate` cleared). -/
structure Runtime where
  now : Int
  warned : Bool

/-- The locale a moment object carries in `_locale`: the library's own default locale `en`,
or whatever value a moment-like input had in its `_locale` field (`undefined` when it had
none), copied as it was. -/
inductive Locale where
  | en : Locale
  | foreign (value : JsValue) : Locale

/-- A moment object: its `_d`, a time value, NaN (`none`) when the moment is invalid, and
its `_locale`. -/
structure Moment where
  d : Option Int
  locale : Locale

/-- The method `isValid()`. -/
def Moment.isValid (m : Moment) : Bool := m.d.isSome

/-- The regular-expression class `\d`. -/
def isDigit (c : Char) : Bool := decide ('0' ≤ c) && decide (c ≤ '9')

/-- Integer value of a run of decimal digits (`toInt` on a matched token). -/
def toInt (ds : List Char) : Int :=
  ds.foldl (fun acc c => 10 * acc + (Int.ofNat c.toNat - 48)) 0

/-- The function `isLeapYear(year)`; a remainder is zero in JavaScript exactly when it is
zero here, also for negative years. -/
def isLeapYear (year : Int) : Bool :=
  (year % 4 = 0 && year % 100 ≠ 0) || year % 400 = 0

/-- The function `daysInMonth(year, month)`, `month` zero-based. -/
def daysInMonth (year month : Int) : Int :=
  let modMonth := month % 12
  let year := year + (month - modMonth) / 12
  if modMonth = 1 then (if isLeapYear year then 29 else 28)
  else 31 - ((modMonth % 7) % 2)

/-- The function `createDate(y, m, d, h, M, s, ms)`: `new Date(...)` in local time, going
through year `y + 400` for years 0..99, which the `Date` constructor would remap. -/
def createDate (tza : Int → Bool → Int) (y m d h M s ms : Int) : Option Int :=
  if y < 100 ∧ 0 ≤ y then
    let date := newDate tza (y + 400) m d h M s ms
    if (getFullYear tza date).isSome then setFullYear tza date y else date
  else newDate tza y m d h M s ms

/-- The function `checkOverflow` on the array `[year, month, date]` with a zero time of day:
index of the first unit out of range (1 for the month, 2 for the day of month), -1 when
there is none. -/
def checkOverflow (year month date : Int) : Int :=
  if month < 0 ∨ month > 11 then 1
  else if date < 1 ∨ date > daysInMonth year month then 2
  else -1

/-- The units `[year, month, date]` that `configFromISO` reads off a plain calendar date
`dddd-dd-dd`: such a string matches the extended ISO regex with the date format `YYYY-MM-DD`
and no time part, the tokens `YYYY`, `MM`, `DD` read the three digit runs with `toInt`, and
the month is stored zero-based.  Other strings give `none`. -/
def isoCalendarDate (s : String) : Option (Int × Int × Int) :=
  match s.data with
  | [y1, y2, y3, y4, '-', m1, m2, '-', d1, d2] =>
    if [y1, y2, y3, y4, m1, m2, d1, d2].all isDigit then
      some (toInt [y1, y2, y3, y4], toInt [m1, m2] - 1, toInt [d1, d2])
    else none
  | _ => none

/-- The function `configFromArray` followed by `checkOverflow` and the validity check of
`prepareConfig`, for units `[year, month, date]` all present: the date is built with
`createDate` at local midnight, and the result is dropped when a unit overflows. -/
def configFromArray (H : Host) (a : Int × Int × Int) : Option Int :=
  let d := createDate H.LocalTZA a.1 a.2.1 a.2.2 0 0 0 0
  let overflow := checkOverflow a.1 a.2.1 a.2.2
  if d.isSome && decide (overflow < 0) then d else none

/-- The hook `createFromInputFallback`, wrapped in `deprecate`: the first call in a process
writes a deprecation warning with `console.warn`, every call builds the date with the host's
`new Date(string)`. -/
def createFromInputFallback (H : Host) (s : String) (rt : Runtime) :
    Option Int × Runtime × List JsValue :=
  (H.dateParse s,
    (if rt.warned then rt else { rt with warned := true }),
    (if rt.warned then [] else [.string (H.deprecationWarning s)]))

/-- The function `configFromString`: moment's own recognisers first (ISO 8601, RFC 2822,
ASP.NET), then the fallback. A string that a recogniser matches never reaches the
fallback, also when it names no valid date. -/
def configFromString (H : Host) (s : String) (rt : Runtime) :
    Option Int × Runtime × List JsValue :=
  match isoCalendarDate s with
  | some a => (configFromArray H a, rt, [])
  | none =>
    match H.otherFormats s with
    | some d => (d, rt, [])
    | none => createFromInputFallback H s rt

/-- String conversion `value + ''` of the values that reach the fallback unconverted. -/
def toStringForFallback : JsValue → String
  | .bool true => "true"
  | .bool false => "false"
  | .null => "null"
  | .error name message =>
    if message = "" then name else if name = "" then message else name ++ ": " ++ message
  | _ => ""

/-- The function `configFromInput`: dispatch on the type of the input.  The result is the
`_d` of the configuration after the validity check, the state of the library, and the lines
written with `console.warn`. -/
def configFromInput (H : Host) (input : JsValue) (rt : Runtime) :
    Option Int × Runtime × List JsValue :=
  match input with
  | .undefined => (TimeClip rt.now, rt, [])
  | .date t => (t, rt, [])
  | .string s => configFromString H s rt
  | .array items => (H.fromUnits (.array items) rt.now, rt, [])
  | .object fields => (H.fromUnits (.object fields) rt.now, rt, [])
  | .number n => (TimeClip n, rt, [])
  | v => createFromInputFallback H (toStringForFallback v) rt

/-- The function `isMoment(input)` on a value that is no instance of `Moment`: whether it
has an `_isAMomentObject` property that is neither `null` nor `undefined`. -/
def isMoment (input : JsValue) : Bool :=
  match input with
  | .object fields => !((fields.lookup "_isAMomentObject").getD .undefined).isNullish
  | _ => false

/-- The constructor call `new Moment(checkOverflow(input))` on a moment-like object: the
copy keeps the `_locale` of the object, its `_d` is NaN when the object has no `_d`, the
time value of the object's `_d` when that is a `Date`, and the call `config._d.getTime()`
throws a `TypeError` on any other `_d`. -/
def copyMoment (H : Host) (input : JsValue) : Except JsValue Moment :=
  let locale := Locale.foreign (input.get "_locale")
  match input.get "_d" with
  | .undefined => .ok ⟨none, locale⟩
  | .null => .ok ⟨none, locale⟩
  | .date _ => (H.copyDate input).map fun d => ⟨d, locale⟩
  | _ => .error (.error "TypeError" "config._d.getTime is not a function")

/-- The function `prepareConfig` with no format argument: `null` and the empty string give
an invalid moment, a moment-like object is copied, a `Date` is taken as it is, everything
else goes to `configFromInput`. -/
def prepareConfig (H : Host) (input : JsValue) (rt : Runtime) : Returned Runtime Moment :=
  match input with
  | .null => ⟨.ok ⟨none, .en⟩, rt, []⟩
  | .date t => ⟨.ok ⟨t, .en⟩, rt, []⟩
  | v =>
    if v matches .string "" then ⟨.ok ⟨none, .en⟩, rt, []⟩
    else if isMoment v then ⟨copyMoment H v, rt, []⟩
    else ⟨.ok ⟨(configFromInput H v rt).1, .en⟩, (configFromInput H v rt).2.1,
      (configFromInput H v rt).2.2⟩

/-- The function `createLocal(input)`, which `moment(input)` is: an empty object or array
counts as no input at all. -/
def createLocal (H : Host) (input : JsValue) (rt : Runtime) : Returned Runtime Moment :=
  match input with
  | .object [] => prepareConfig H .undefined rt
  | .array [] => prepareConfig H .undefined rt
  | v => prepareConfig H v rt

/-- The digit character of `n % 10`. -/
def digitChar (n : Nat) : Char := Char.ofNat (48 + n % 10)

/-- Decimal digits of `n` in front of `acc`, most significant first; `fuel` bounds the
number of digits. -/
def decimalAux : Nat → Nat → List Char → List Char
  | 0, _, acc => acc
  | fuel + 1, n, acc =>
    if n < 10 then digitChar n :: acc
    else decimalAux fuel (n / 10) (digitChar n :: acc)

/-- Decimal numeral of a natural number (`'' + n`). -/
def decimal (n : Nat) : List Char := decimalAux (n + 1) n []

/-- The function `zeroFill(number, targetLength)` without forced sign: the absolute value
padded with zeros to at least `targetLength` digits, behind a minus sign when negative. -/
def zeroFill (number : Int) (targetLength : Nat) : List Char :=
  let absNumber := decimal number.natAbs
  (if 0 ≤ number then [] else ['-'])
    ++ List.replicate (targetLength - absNumber.length) '0' ++ absNumber

/-- The default locale's `monthsShort`. -/
def monthsShort : List String :=
  ["Jan", "Feb", "Mar", "Apr", "May", "Jun", "Jul", "Aug", "Sep", "Oct", "Nov", "Dec"]

/-- Tokens of a format string, for patterns over the tokens `YYYY`, `MMM` and `DD`: these
three are recognised, any other character is a token of its own (the catch-all alternative
of the `formattingTokens` regex). -/
def formattingTokens : List Char → List (List Char)
  | 'Y' :: 'Y' :: 'Y' :: 'Y' :: cs => ['Y', 'Y', 'Y', 'Y'] :: formattingTokens cs
  | 'M' :: 'M' :: 'M' :: cs => ['M', 'M', 'M'] :: formattingTokens cs
  | 'D' :: 'D' :: cs => ['D', 'D'] :: formattingTokens cs
  | c :: cs => [c] :: formattingTokens cs
  | [] => []

/-- Rendering of one token for the local time `t`: `DD` the day of month on two digits,
`MMM` the short month name, `YYYY` the year on at least four digits, anything else itself. -/
def formatToken (t : Int) (token : List Char) : List Char :=
  if token = ['D', 'D'] then zeroFill (DateFromTime t) 2
  else if token = ['M', 'M', 'M'] then (monthsShort.getD (MonthFromTime t).toNat "").data
  else if token = ['Y', 'Y', 'Y', 'Y'] then zeroFill (YearFromTime t) 4
  else token

/-- The function `formatMoment(m, format)` for a moment that carries the library's own
locale: the locale's `invalidDate` text for an invalid moment, otherwise the rendered tokens,
read off the `Date` with its local-time getters. -/
def formatMoment (H : Host) (m : Moment) (format : String) : String :=
  match m.d with
  | none => "Invalid date"
  | some t =>
    String.mk (((formattingTokens format.data).map
      (formatToken (LocalTime H.LocalTZA t))).foldr (fun a b => a ++ b) [])

/-- The `TypeError` of a method call `callee.localeData().method()` on a moment whose
`localeData()` is the value `locale`, which has no such method. -/
def localeTypeError (locale : JsValue) (callee method : String) : JsValue :=
  match locale with
  | .undefined =>
    .error "TypeError" ("Cannot read properties of undefined (reading '" ++ method ++ "')")
  | .null =>
    .error "TypeError" ("Cannot read properties of null (reading '" ++ method ++ "')")
  | _ => .error "TypeError" (callee ++ ".localeData(...)." ++ method ++ " is not a function")

/-- The method `format(pattern)` for a pattern with a month name, as `DD MMM YYYY`: with
the library's locale it is `formatMoment` (whose `postformat` is the identity); on a copy of
a moment-like input it throws where `formatMoment` calls into the locale, at `invalidDate`
for an invalid moment and at the month name for a valid one. -/
def Moment.format (H : Host) (m : Moment) (pattern : String) : Except JsValue String :=
  match m.locale with
  | .en => .ok (formatMoment H m pattern)
  | .foreign v =>
    if m.isValid then .error (localeTypeError v "this" "monthsShort")
    else .error (localeTypeError v "m" "invalidDate")

/-- The moment library as the handler sees it: `moment(input)` is `createLocal`, and
`m.format(pattern)` is the method `format`, which touches neither state nor console. -/
def momentJs (H : Host) : MomentLib Runtime Moment where
  moment := fun input rt => createLocal H input rt
  format := fun m pattern rt => ⟨m.format H pattern, rt, []⟩

/-! ## The vocabulary of the specification -/

/-- The numeral of `n < 100` on two digits, zero-padded. -/
def twoDigits (n : Nat) : List Char := [digitChar (n / 10), digitChar n]

/-- The numeral of `n < 10000` on four digits, zero-padded. -/
def fourDigits (n : Nat) : List Char :=
  [digitChar (n / 1000), digitChar (n / 100), digitChar (n / 10), digitChar n]

/-- Three-letter English abbreviation of month `m` in 1..12. -/
def monthAbbrev (m : Nat) : String :=
  match m with
  | 1 => "Jan"
  | 2 => "Feb"
  | 3 => "Mar"
  | 4 => "Apr"
  | 5 => "May"
  | 6 => "Jun"
  | 7 => "Jul"
  | 8 => "Aug"
  | 9 => "Sep"
  | 10 => "Oct"
  | 11 => "Nov"
  | 12 => "Dec"
  | _ => ""

/-- Number of days of month `m` (1..12) of year `y` in the Gregorian calendar. -/
def gregorianMonthLength (y m : Nat) : Nat :=
  if m = 2 then (if (y % 4 = 0 ∧ y % 100 ≠ 0) ∨ y % 400 = 0 then 29 else 28)
  else if m = 4 ∨ m = 6 ∨ m = 9 ∨ m = 11 then 30
  else 31

/-- The ISO 8601 calendar-date string `YYYY-MM-DD` of year `y`, month `m`, day `d`. -/
def isoDateString (y m d : Nat) : String :=
  String.mk (fourDigits y ++ '-' :: twoDigits m ++ '-' :: twoDigits d)

/-- The string `DD MMM YYYY` of year `y`, month `m`, day `d`. -/
def dayMonthYear (y m d : Nat) : String :=
  String.mk (twoDigits d ++ ' ' :: (monthAbbrev m).data ++ ' ' :: fourDigits y)

/-- Whether two characters are the two digits of a day of month 01..31. -/
def isDayOfMonth (d1 d2 : Char) : Bool :=
  isDigit d1 && isDigit d2 && decide (1 ≤ toInt [d1, d2]) && decide (toInt [d1, d2] ≤ 31)

/-- Whether three characters are one of the twelve month abbreviations. -/
def isMonthAbbrev (m1 m2 m3 : Char) : Bool :=
  ["Jan", "Feb", "Mar", "Apr", "May", "Jun", "Jul", "Aug", "Sep", "Oct", "Nov", "Dec"].contains
    (String.mk [m1, m2, m3])

/-- The pattern `DD MMM YYYY` as the specification words it: exactly 11 characters, two
decimal digits naming a day 01..31, a space, one of the twelve month abbreviations, a
space, and exactly four decimal digits. -/
def conformsDDMMMYYYY (s : String) : Bool :=
  match s.data with
  | [d1, d2, s1, m1, m2, m3, s2, y1, y2, y3, y4] =>
    isDayOfMonth d1 d2 && s1 == ' ' && isMonthAbbrev m1 m2 m3 && s2 == ' '
      && [y1, y2, y3, y4].all isDigit
  | _ => false

/-- A year numeral as `zeroFill` writes it: at least four decimal digits, behind a minus
sign when the year is negative. -/
def isYearNumeral (cs : List Char) : Bool :=
  match cs with
  | '-' :: ds => decide (4 ≤ ds.length) && ds.all isDigit
  | ds => decide (4 ≤ ds.length) && ds.all isDigit

/-- The pattern `DD MMM YYYY` with the year as moment writes it: two digits naming a day
01..31, a space, a month abbreviation, a space, and a year numeral of four digits or more,
possibly negative. -/
def conformsExpandedYear (s : String) : Bool :=
  match s.data with
  | d1 :: d2 :: s1 :: m1 :: m2 :: m3 :: s2 :: year =>
    isDayOfMonth d1 d2 && s1 == ' ' && isMonthAbbrev m1 m2 m3 && s2 == ' '
      && isYearNumeral year
  | _ => false

/-- The value that `console.log` receives for the outcome of the parse-and-format step:
`formattedDate` when the step returned, `err` when it threw. -/
def loggedLine (r : Except JsValue String) : JsValue :=
  match r with
  | .ok s => .string s
  | .error e => e

/-- The lines that an invocation started on the process state `p` wrote with
`console.log`. -/
def loggedBy {σ : Type} (run : Proc σ → Completion × Proc σ) (p : Proc σ) : List JsValue :=
  (run p).2.stdout.drop p.stdout.length

/-- The lines that an invocation started on the process state `p` wrote with
`console.warn`. -/
def warnedBy {σ : Type} (run : Proc σ → Completion × Proc σ) (p : Proc σ) : List JsValue :=
  (run p).2.stderr.drop p.stderr.length

/-- Whether `moment(input)` consults the clock: it does when there is no input
(`undefined`, an empty array or object) and may do when units are missing from an array
or object. -/
def readsClock : JsValue → Bool
  | .undefined => true
  | .array _ => true
  | .object _ => true
  | _ => false

/-! ## Concrete hosts and inputs -/

/-- A host on UTC whose fallback parser and remaining recognisers accept no string, which
builds nothing from arrays and objects, and whose deprecation warning is cut down to its
first sentence. -/
def utcHost : Host where
  LocalTZA := fun _ _ => 0
  otherFormats := fun _ => none
  dateParse := fun _ => none
  fromUnits := fun _ _ => none
  copyDate := fun _ => .ok none
  deprecationWarning := fun _ =>
    "Deprecation warning: value provided is not in a recognized RFC2822 or ISO format."

/-- The offset of the zone `Pacific/Apia` around the end of 2011: ten hours behind UTC
until 2011-12-30T10:00:00Z, fourteen hours ahead from then on, so that local time goes from
the end of 29 December to the start of 31 December; the local times of the skipped day are
read with the offset before the transition. -/
def apiaLocalTZA (t : Int) (isUTC : Bool) : Int :=
  if isUTC then (if t < 1325239200000 then -36000000 else 50400000)
  else (if t < 1325289600000 then -36000000 else 50400000)

/-- The host `utcHost` moved to the zone `Pacific/Apia`. -/
def apiaHost : Host :=
  { utcHost with LocalTZA := apiaLocalTZA }

/-- The offset of the zone `America/Sao_Paulo` around the start of its summer time of 2018:
three hours behind UTC until 2018-11-04T03:00:00Z, two hours behind from then on, so that
the local hour from midnight to one o'clock of 4 November is skipped; the local times of the
skipped hour are read with the offset before the transition. -/
def saoPauloLocalTZA (t : Int) (isUTC : Bool) : Int :=
  if isUTC then (if t < 1541300400000 then -10800000 else -7200000)
  else (if t < 1541293200000 then -10800000 else -7200000)

/-- The host `utcHost` moved to the zone `America/Sao_Paulo`. -/
def saoPauloHost : Host :=
  { utcHost with LocalTZA := saoPauloLocalTZA }

/-- A fresh process at clock reading `now`: nothing written, no warning issued. -/
def freshProc (now : Int) : Proc Runtime where
  lib := { now := now, warned := false }
  stdout := []
  stderr := []

/-- The process state `p` with the clock moved to `now`. -/
def advanceClock (p : Proc Runtime) (now : Int) : Proc Runtime :=
  { p with lib := { p.lib with now := now } }

/-- An event carrying `date` as its only field. -/
def eventWithDate (date : JsValue) : JsValue := .object [("date", date)]


/-! ## The handler, whatever the library does -/

/-- The handler in terms of its parse-and-format step: when the step returns `s`, the
promise fulfils with `undefined` and `s` is the one line logged. -/
theorem lambdaHandler_of_ok {σ μ : Type} (L : MomentLib σ μ) (event context : JsValue)
    (p q : Proc σ) (s : String) (h : parseAndFormat L event p = (.ok s, q)) :
    lambdaHandler L event context p
      = (.fulfilled .undefined, { q with stdout := q.stdout ++ [.string s] }) := by
  simp [lambdaHandler, async, Js.tryCatch, tryBlock, Js.bind, h, consoleLog]

/-- The handler in terms of its parse-and-format step: when the step throws `e`, the
promise fulfils with `undefined` and `e` is the one line logged. -/
theorem lambdaHandler_of_error {σ μ : Type} (L : MomentLib σ μ) (event context : JsValue)
    (p q : Proc σ) (e : JsValue) (h : parseAndFormat L event p = (.error e, q)) :
    lambdaHandler L event context p
      = (.fulfilled .undefined, { q with stdout := q.stdout ++ [e] }) := by
  simp [lambdaHandler, async, Js.tryCatch, tryBlock, Js.bind, h, consoleLog]

/-- The parse-and-format step calls the library only: it leaves `stdout` as it was. -/
theorem parseAndFormat_stdout {σ μ : Type} (L : MomentLib σ μ) (event : JsValue)
    (p : Proc σ) : (parseAndFormat L event p).2.stdout = p.stdout := by
  unfold parseAndFormat Js.bind Js.ofExcept Js.call
  cases destructureDate event with
  | error e => rfl
  | ok date =>
    simp only
    cases h : (L.moment date p.lib).result with
    | error e => rfl
    | ok m => rfl

/-- The parse-and-format step reads nothing of a non-nullish event but its `date` field,
which it hands to `moment` as it is. -/
theorem parseAndFormat_eq {σ μ : Type} (L : MomentLib σ μ) (event : JsValue)
    (h : event.isNullish = false) :
    parseAndFormat L event
      = Js.bind (Js.call (L.moment (event.get "date"))) fun m =>
          Js.call (L.format m "DD MMM YYYY") := by
  funext p
  cases event <;> simp_all [parseAndFormat, Js.bind, Js.ofExcept, destructureDate,
    JsValue.isNullish]

/-- C2: for every library, event, context and process state, the promise returned by
`lambdaHandler` fulfils and is never rejected, on the success path and on the failure path
alike. -/
theorem lambdaHandler_never_rejects {σ μ : Type} (L : MomentLib σ μ)
    (event context : JsValue) (p : Proc σ) :
    (lambdaHandler L event context p).1.isFulfilled = true
      ∧ ∀ e : JsValue, (lambdaHandler L event context p).1 ≠ Completion.rejected e := by
  rcases h : parseAndFormat L event p with ⟨r, q⟩
  cases r with
  | ok s => rw [lambdaHandler_of_ok L event context p q s h]; simp [Completion.isFulfilled]
  | error e => rw [lambdaHandler_of_error L event context p q e h]; simp [Completion.isFulfilled]

/-- Whatever the library does, one invocation writes exactly one line with `console.log`:
the formatted date when the parse-and-format step returned it, the thrown value when the
step threw, and never both. -/
theorem lambdaHandler_stdout {σ μ : Type} (L : MomentLib σ μ)
    (event context : JsValue) (p : Proc σ) :
    ∃ line : JsValue,
      (lambdaHandler L event context p).2.stdout = p.stdout ++ [line]
        ∧ (((parseAndFormat L event p).1 = .error line)
            ∨ ∃ s : String, (parseAndFormat L event p).1 = .ok s ∧ line = .string s) := by
  have hs := parseAndFormat_stdout L event p
  rcases h : parseAndFormat L event p with ⟨r, q⟩
  rw [h] at hs
  cases r with
  | ok s =>
    refine ⟨.string s, ?_, Or.inr ⟨s, rfl, rfl⟩⟩
    rw [lambdaHandler_of_ok L event context p q s h]
    simpa using hs
  | error e =>
    refine ⟨e, ?_, Or.inl rfl⟩
    rw [lambdaHandler_of_error L event context p q e h]
    simpa using hs

/-- C7: for every library, event, context and process state, the promise returned by
`lambdaHandler` fulfils with `undefined`, whether the date was formatted and logged or an
error was caught and logged. -/
theorem lambdaHandler_returns_undefined {σ μ : Type} (L : MomentLib σ μ)
    (event context : JsValue) (p : Proc σ) :
    (lambdaHandler L event context p).1 = Completion.fulfilled JsValue.undefined := by
  rcases h : parseAndFormat L event p with ⟨r, q⟩
  cases r with
  | ok s => rw [lambdaHandler_of_ok L event context p q s h]
  | error e => rw [lambdaHandler_of_error L event context p q e h]

/-- C9: two invocations from the same process state whose events carry the same `date`
value end in the same completion and the same log, whatever the two contexts and the other
fields of the two events are; the `date` value is what `moment` is called with, unchanged
and unchecked. -/
theorem lambdaHandler_depends_on_date_only {σ μ : Type} (L : MomentLib σ μ)
    (event₁ event₂ context₁ context₂ : JsValue) (p : Proc σ)
    (h₁ : event₁.isNullish = false) (h₂ : event₂.isNullish = false)
    (h : event₁.get "date" = event₂.get "date") :
    lambdaHandler L event₁ context₁ p = lambdaHandler L event₂ context₂ p
      ∧ parseAndFormat L event₁
          = Js.bind (Js.call (L.moment (event₁.get "date"))) fun m =>
              Js.call (L.format m "DD MMM YYYY") := by
  refine ⟨?_, parseAndFormat_eq L event₁ h₁⟩
  unfold lambdaHandler tryBlock
  rw [parseAndFormat_eq L event₁ h₁, parseAndFormat_eq L event₂ h₂, h]

/-- Witness of C9: an event with a second field and a context, against the bare event and
no context. -/
theorem lambdaHandler_depends_on_date_only_witness :
    lambdaHandler (momentJs utcHost)
        (.object [("id", .number 7), ("date", .string "2024-03-05")]) (.string "ctx")
        (freshProc 0)
      = lambdaHandler (momentJs utcHost) (eventWithDate (.string "2024-03-05")) .undefined
          (freshProc 0)
      ∧ parseAndFormat (momentJs utcHost)
          (.object [("id", .number 7), ("date", .string "2024-03-05")])
          = Js.bind (Js.call ((momentJs utcHost).moment
              ((JsValue.object [("id", .number 7), ("date", .string "2024-03-05")]).get "date")))
              fun m => Js.call ((momentJs utcHost).format m "DD MMM YYYY") :=
  lambdaHandler_depends_on_date_only (momentJs utcHost)
    (.object [("id", .number 7), ("date", .string "2024-03-05")])
    (eventWithDate (.string "2024-03-05")) (.string "ctx") .undefined (freshProc 0)
    rfl rfl rfl

/-- C10: whenever the parse-and-format step throws, the thrown value is caught, it is the
one line written to the log, no formatted date is written, and the promise fulfils with
`undefined` instead of rejecting. -/
theorem lambdaHandler_logs_caught_error {σ μ : Type} (L : MomentLib σ μ)
    (event context : JsValue) (p : Proc σ) (err : JsValue)
    (h : (parseAndFormat L event p).1 = .error err) :
    (lambdaHandler L event context p).1 = Completion.fulfilled JsValue.undefined
      ∧ (lambdaHandler L event context p).2.stdout = p.stdout ++ [err] := by
  have hs := parseAndFormat_stdout L event p
  rcases hq : parseAndFormat L event p with ⟨r, q⟩
  rw [hq] at h hs
  simp only at h
  subst h
  rw [lambdaHandler_of_error L event context p q err hq]
  simpa using hs

/-- Witness of C10: a `null` event and an `undefined` event, for which the destructuring
throws a `TypeError` before the library is called. -/
theorem lambdaHandler_logs_caught_error_witness :
    ((parseAndFormat (momentJs utcHost) .null (freshProc 0)).1
        = .error (.error "TypeError"
            "Cannot destructure property 'date' of 'event' as it is null.")
      ∧ (lambdaHandler (momentJs utcHost) .null .undefined (freshProc 0)).1
          = Completion.fulfilled JsValue.undefined
      ∧ (lambdaHandler (momentJs utcHost) .null .undefined (freshProc 0)).2.stdout
          = (freshProc 0).stdout ++ [.error "TypeError"
            "Cannot destructure property 'date' of 'event' as it is null."])
    ∧ ((parseAndFormat (momentJs utcHost) .undefined (freshProc 0)).1
        = .error (.error "TypeError"
            "Cannot destructure property 'date' of 'event' as it is undefined.")
      ∧ (lambdaHandler (momentJs utcHost) .undefined .undefined (freshProc 0)).1
          = Completion.fulfilled JsValue.undefined
      ∧ (lambdaHandler (momentJs utcHost) .undefined .undefined (freshProc 0)).2.stdout
          = (freshProc 0).stdout ++ [.error "TypeError"
            "Cannot destructure property 'date' of 'event' as it is undefined."]) :=
  ⟨⟨rfl, lambdaHandler_logs_caught_error (momentJs utcHost) .null .undefined (freshProc 0)
      (.error "TypeError" "Cannot destructure property 'date' of 'event' as it is null.") rfl⟩,
   ⟨rfl, lambdaHandler_logs_caught_error (momentJs utcHost) .undefined .undefined (freshProc 0)
      (.error "TypeError" "Cannot destructure property 'date' of 'event' as it is undefined.")
      rfl⟩⟩

/-! ## Calendar arithmetic -/

/-- Consecutive years are `DaysInYear` days apart. -/
theorem DayFromYear_succ (y : Int) : DayFromYear (y + 1) = DayFromYear y + DaysInYear y := by
  unfold DayFromYear DaysInYear
  split_ifs <;> omega

/-- A year has 365 or 366 days. -/
theorem DaysInYear_cases (y : Int) : DaysInYear y = 365 ∨ DaysInYear y = 366 := by
  unfold DaysInYear
  split_ifs <;> simp

/-- Later years start later. -/
theorem DayFromYear_mono (a b : Int) (h : a ≤ b) : DayFromYear a ≤ DayFromYear b := by
  unfold DayFromYear
  omega

/-- The year of `t` has started by `t`. -/
theorem YearFromTime_le (t : Int) : DayFromYear (YearFromTime t) ≤ Day t := by
  unfold YearFromTime
  simp only
  split_ifs with h1 h2
  · exact h1
  · exact h2
  · unfold DayFromYear; omega

/-- The year after the year of `t` has not started by `t`. -/
theorem YearFromTime_lt (t : Int) : Day t < DayFromYear (YearFromTime t + 1) := by
  unfold YearFromTime
  simp only
  split_ifs with h1 h2
  · unfold DayFromYear; omega
  · omega
  · rw [Int.sub_add_cancel]; omega

/-- The year of `t` is the only year that contains the day of `t`: `YearFromTime` is the
year ECMA-262 defines. -/
theorem YearFromTime_eq (t y : Int) (h1 : DayFromYear y ≤ Day t)
    (h2 : Day t < DayFromYear (y + 1)) : YearFromTime t = y := by
  have a1 := YearFromTime_le t
  have a2 := YearFromTime_lt t
  rcases lt_trichotomy (YearFromTime t) y with h | h | h
  · have := DayFromYear_mono (YearFromTime t + 1) y (by omega)
    omega
  · exact h
  · have := DayFromYear_mono (y + 1) (YearFromTime t) (by omega)
    omega

/-- The year of `t` in the words of ECMA-262: it has started by `t`, and the next year has
not. -/
theorem YearFromTime_spec (t : Int) :
    TimeFromYear (YearFromTime t) ≤ t ∧ t < TimeFromYear (YearFromTime t + 1) := by
  have a1 := YearFromTime_le t
  have a2 := YearFromTime_lt t
  unfold TimeFromYear
  unfold Day at a1 a2
  generalize DayFromYear (YearFromTime t) = a at *
  generalize DayFromYear (YearFromTime t + 1) = b at *
  unfold msPerDay at *
  omega

/-- The day of the year lies within the year. -/
theorem DayWithinYear_range (t : Int) :
    0 ≤ DayWithinYear t ∧ DayWithinYear t < DaysInYear (YearFromTime t) := by
  have a1 := YearFromTime_le t
  have a2 := YearFromTime_lt t
  rw [DayFromYear_succ] at a2
  unfold DayWithinYear
  omega

/-- The leap-year indicator goes with the length of the year. -/
theorem InLeapYear_cases (t : Int) :
    (InLeapYear t = 0 ∧ DaysInYear (YearFromTime t) = 365)
      ∨ (InLeapYear t = 1 ∧ DaysInYear (YearFromTime t) = 366) := by
  have hy := DaysInYear_cases (YearFromTime t)
  unfold InLeapYear
  by_cases h : DaysInYear (YearFromTime t) = 365
  · exact Or.inl ⟨by rw [if_pos h], h⟩
  · exact Or.inr ⟨by rw [if_neg h], by omega⟩

/-- The month of a time value is one of the twelve. -/
theorem MonthFromTime_range (t : Int) : 0 ≤ MonthFromTime t ∧ MonthFromTime t ≤ 11 := by
  unfold MonthFromTime
  generalize DayWithinYear t = d
  generalize InLeapYear t = l
  dsimp only
  omega

/-- The day of the month of a time value lies in 1..31. -/
theorem DateFromTime_range (t : Int) : 1 ≤ DateFromTime t ∧ DateFromTime t ≤ 31 := by
  have hd := DayWithinYear_range t
  have hl := InLeapYear_cases t
  unfold DateFromTime MonthFromTime
  generalize DayWithinYear t = d at *
  generalize InLeapYear t = l at *
  generalize DaysInYear (YearFromTime t) = n at *
  dsimp only
  omega

/-- Moment's leap years are the years of 366 days. -/
theorem isLeapYear_iff (y : Int) : isLeapYear y = true ↔ DaysInYear y = 366 := by
  unfold isLeapYear DaysInYear
  by_cases h4 : y % 4 = 0 <;> by_cases h100 : y % 100 = 0 <;> by_cases h400 : y % 400 = 0
    <;> simp [h4, h100, h400] <;> omega

/-- Moment's month length, for a month within the year, by the length of the year. -/
theorem daysInMonth_eq (y m : Int) (hm : 0 ≤ m ∧ m ≤ 11) :
    daysInMonth y m
      = if m = 1 then (if DaysInYear y = 366 then 29 else 28) else 31 - ((m % 7) % 2) := by
  have hmr : m % 12 = m := by omega
  have hsub : (m - m) / 12 = 0 := by omega
  unfold daysInMonth
  simp only [hmr, hsub, add_zero]
  by_cases hl : isLeapYear y = true
  · rw [if_pos hl, if_pos ((isLeapYear_iff y).1 hl)]
  · rw [if_neg hl, if_neg (fun h => hl ((isLeapYear_iff y).2 h))]

/-- The day number, year, month and day of month of the time value built from a valid
calendar date `y`, zero-based month `m`, day `d` and a time of day `tod`. -/
theorem MakeDay_roundtrip (y m d tod : Int) (hm : 0 ≤ m ∧ m ≤ 11)
    (hd : 1 ≤ d ∧ d ≤ daysInMonth y m) (htod : 0 ≤ tod ∧ tod < msPerDay) :
    YearFromTime (MakeDate (MakeDay y m d) tod) = y
      ∧ MonthFromTime (MakeDate (MakeDay y m d) tod) = m
      ∧ DateFromTime (MakeDate (MakeDay y m d) tod) = d
      ∧ TimeWithinDay (MakeDate (MakeDay y m d) tod) = tod := by
  have hday : Day (MakeDate (MakeDay y m d) tod) = MakeDay y m d := by
    unfold Day MakeDate msPerDay at *
    omega
  have htw : TimeWithinDay (MakeDate (MakeDay y m d) tod) = tod := by
    unfold TimeWithinDay MakeDate msPerDay at *
    omega
  have hmq : m / 12 = 0 := by omega
  have hmr : m % 12 = m := by omega
  have hmk : MakeDay y m d
      = DayFromYear y + daysBeforeMonth m (if DaysInYear y = 365 then 0 else 1) + d - 1 := by
    unfold MakeDay
    simp only [hmq, hmr, add_zero]
  have hcases := DaysInYear_cases y
  have hdim := hd.2
  rw [daysInMonth_eq y m hm] at hdim
  have hd1 := hd.1
  have hyear : YearFromTime (MakeDate (MakeDay y m d) tod) = y := by
    apply YearFromTime_eq
    · rw [hday, hmk]
      unfold daysBeforeMonth
      generalize DaysInYear y = n at *
      generalize DayFromYear y = a at *
      omega
    · rw [hday, hmk, DayFromYear_succ]
      unfold daysBeforeMonth
      generalize DaysInYear y = n at *
      generalize DayFromYear y = a at *
      omega
  have hdwy : DayWithinYear (MakeDate (MakeDay y m d) tod)
      = daysBeforeMonth m (if DaysInYear y = 365 then 0 else 1) + d - 1 := by
    unfold DayWithinYear
    rw [hday, hyear, hmk]
    omega
  have hleap : InLeapYear (MakeDate (MakeDay y m d) tod)
      = if DaysInYear y = 365 then 0 else 1 := by
    unfold InLeapYear
    rw [hyear]
  have hm12 : m = 0 ∨ m = 1 ∨ m = 2 ∨ m = 3 ∨ m = 4 ∨ m = 5 ∨ m = 6 ∨ m = 7 ∨ m = 8
      ∨ m = 9 ∨ m = 10 ∨ m = 11 := by omega
  have hmonth : MonthFromTime (MakeDate (MakeDay y m d) tod) = m := by
    unfold MonthFromTime
    rw [hdwy, hleap]
    generalize DaysInYear y = n at *
    rcases hm12 with h | h | h | h | h | h | h | h | h | h | h | h <;> subst h
      <;> norm_num [daysBeforeMonth] at hdim ⊢ <;> omega
  refine ⟨hyear, hmonth, ?_, htw⟩
  unfold DateFromTime
  rw [hmonth, hdwy, hleap]
  generalize DaysInYear y = n at *
  rcases hm12 with h | h | h | h | h | h | h | h | h | h | h | h <;> subst h
    <;> norm_num [daysBeforeMonth] at hdim ⊢ <;> omega

/-! ## Numerals -/

/-- A digit character is a digit. -/
theorem isDigit_digitChar (n : Nat) : isDigit (digitChar n) = true := by
  have h : n % 10 < 10 := Nat.mod_lt n (by decide)
  unfold digitChar
  generalize n % 10 = r at h
  interval_cases r <;> rfl

/-- The code of a digit character. -/
theorem toNat_digitChar (n : Nat) : (digitChar n).toNat = 48 + n % 10 := by
  have h : n % 10 < 10 := Nat.mod_lt n (by decide)
  unfold digitChar
  generalize n % 10 = r at h
  interval_cases r <;> rfl

/-- Reading a two-digit numeral gives the number back. -/
theorem toInt_twoDigits (n : Nat) (h : n < 100) : toInt (twoDigits n) = n := by
  simp only [toInt, twoDigits, List.foldl, toNat_digitChar, Int.ofNat_eq_coe]
  omega

/-- Reading a four-digit numeral gives the number back. -/
theorem toInt_fourDigits (n : Nat) (h : n < 10000) : toInt (fourDigits n) = n := by
  simp only [toInt, fourDigits, List.foldl, toNat_digitChar, Int.ofNat_eq_coe]
  omega

/-- One step of `decimalAux` on a single digit. -/
theorem decimalAux_small (fuel n : Nat) (acc : List Char) (hf : 0 < fuel) (h : n < 10) :
    decimalAux fuel n acc = digitChar n :: acc := by
  cases fuel with
  | zero => omega
  | succ k => simp [decimalAux, h]

/-- One step of `decimalAux` on a number of several digits. -/
theorem decimalAux_large (fuel n : Nat) (acc : List Char) (hf : 0 < fuel) (h : 10 ≤ n) :
    decimalAux fuel n acc = decimalAux (fuel - 1) (n / 10) (digitChar n :: acc) := by
  cases fuel with
  | zero => omega
  | succ k => simp [decimalAux, Nat.not_lt.2 h]

/-- The decimal numeral of a number below 10000, by the number of its digits. -/
theorem decimal_small (n : Nat) (h : n < 10000) :
    decimal n =
      if n < 10 then [digitChar n]
      else if n < 100 then [digitChar (n / 10), digitChar n]
      else if n < 1000 then [digitChar (n / 100), digitChar (n / 10), digitChar n]
      else [digitChar (n / 1000), digitChar (n / 100), digitChar (n / 10), digitChar n] := by
  unfold decimal
  by_cases h1 : n < 10
  · rw [if_pos h1, decimalAux_small _ _ _ (by omega) h1]
  rw [if_neg h1, decimalAux_large _ _ _ (by omega) (by omega)]
  by_cases h2 : n < 100
  · rw [if_pos h2, decimalAux_small _ _ _ (by omega) (by omega)]
  rw [if_neg h2, decimalAux_large _ _ _ (by omega) (by omega)]
  have e1 : n / 10 / 10 = n / 100 := by omega
  by_cases h3 : n < 1000
  · rw [if_pos h3, decimalAux_small _ _ _ (by omega) (by omega), e1]
  rw [if_neg h3, decimalAux_large _ _ _ (by omega) (by omega)]
  have e2 : n / 10 / 10 / 10 = n / 1000 := by omega
  rw [decimalAux_small _ _ _ (by omega) (by omega), e2, e1]

/-- A digit character depends on the last digit only. -/
theorem digitChar_zero_of_lt (n k : Nat) (h : n < k) : digitChar (n / k) = '0' := by
  rw [Nat.div_eq_of_lt h]
  rfl

/-- On two digits `zeroFill` writes the zero-padded numeral of a number below 100. -/
theorem zeroFill_two (n : Nat) (h : n < 100) : zeroFill (n : Int) 2 = twoDigits n := by
  unfold zeroFill twoDigits
  simp only [Int.natAbs_ofNat, Int.ofNat_nonneg, if_true, List.nil_append]
  rw [decimal_small n (by omega)]
  by_cases h1 : n < 10
  · simp [h1, digitChar_zero_of_lt n 10 h1, List.replicate]
  · simp [h1, h]

/-- On four digits `zeroFill` writes the zero-padded numeral of a number below 10000. -/
theorem zeroFill_four (n : Nat) (h : n < 10000) : zeroFill (n : Int) 4 = fourDigits n := by
  unfold zeroFill fourDigits
  simp only [Int.natAbs_ofNat, Int.ofNat_nonneg, if_true, List.nil_append]
  rw [decimal_small n h]
  by_cases h1 : n < 10
  · simp [h1, digitChar_zero_of_lt n 10 h1, digitChar_zero_of_lt n 100 (by omega),
      digitChar_zero_of_lt n 1000 (by omega), List.replicate]
  by_cases h2 : n < 100
  · simp [h1, h2, digitChar_zero_of_lt n 100 h2, digitChar_zero_of_lt n 1000 (by omega),
      List.replicate]
  by_cases h3 : n < 1000
  · simp [h1, h2, h3, digitChar_zero_of_lt n 1000 h3, List.replicate]
  · simp [h1, h2, h3]

/-- Reading digits from a starting value. -/
theorem toInt_foldl (ds : List Char) : ∀ a : Int,
    ds.foldl (fun acc c => 10 * acc + (Int.ofNat c.toNat - 48)) a
      = a * 10 ^ ds.length + toInt ds := by
  induction ds with
  | nil => intro a; simp [toInt]
  | cons c cs ih =>
    intro a
    unfold toInt
    simp only [List.foldl_cons, List.length_cons]
    rw [ih, ih (10 * 0 + (Int.ofNat c.toNat - 48))]
    ring

/-- Reading a numeral with one more leading digit. -/
theorem toInt_cons_digitChar (n : Nat) (cs : List Char) :
    toInt (digitChar n :: cs) = ((n % 10 : Nat) : Int) * 10 ^ cs.length + toInt cs := by
  unfold toInt
  simp only [List.foldl_cons]
  rw [toInt_foldl, toNat_digitChar]
  simp only [Int.ofNat_eq_coe]
  have : (10 * 0 + (((48 + n % 10 : Nat) : Int) - 48)) = ((n % 10 : Nat) : Int) := by
    push_cast; ring
  rw [this]
  rfl

/-- The digits `decimalAux` writes in front of `acc` are those of `n`, given fuel for them. -/
theorem toInt_decimalAux (fuel : Nat) : ∀ (n : Nat) (acc : List Char), n < fuel →
    toInt (decimalAux fuel n acc) = (n : Int) * 10 ^ acc.length + toInt acc := by
  induction fuel with
  | zero => intro n acc h; omega
  | succ k ih =>
    intro n acc h
    unfold decimalAux
    split_ifs with hn
    · rw [toInt_cons_digitChar, Nat.mod_eq_of_lt hn]
    · rw [ih (n / 10) _ (by omega), toInt_cons_digitChar]
      simp only [List.length_cons]
      have key : (n : Int) = 10 * ((n : Int) / 10) + (n : Int) % 10 := by omega
      push_cast
      linear_combination (-(10 : Int) ^ acc.length) * key

/-- The decimal numeral of `n` reads back as `n`: the fuel of `decimal` is enough. -/
theorem toInt_decimal (n : Nat) : toInt (decimal n) = n := by
  unfold decimal
  rw [toInt_decimalAux (n + 1) n [] (by omega)]
  simp [toInt]

/-- The short month names of the library are the abbreviations of the specification. -/
theorem monthsShort_eq (m : Nat) (h : 1 ≤ m ∧ m ≤ 12) :
    monthsShort.getD (((m : Int) - 1).toNat) "" = monthAbbrev m := by
  obtain ⟨h1, h2⟩ := h
  interval_cases m <;> rfl

/-- The units read off a calendar-date string. -/
theorem isoCalendarDate_isoDateString (y m d : Nat) (hy : y < 10000) (hm : m < 100)
    (hd : d < 100) :
    isoCalendarDate (isoDateString y m d) = some ((y : Int), (m : Int) - 1, (d : Int)) := by
  have e4 := toInt_fourDigits y hy
  have em := toInt_twoDigits m hm
  have ed := toInt_twoDigits d hd
  unfold fourDigits at e4
  unfold twoDigits at em ed
  simp [isoCalendarDate, isoDateString, fourDigits, twoDigits, isDigit_digitChar, e4, em, ed]


/-! ## Calendar dates through `moment` -/

/-- The rendering of a valid moment with the pattern of the handler: day of month, short
month name and year of the local time, separated by single spaces. -/
theorem formatMoment_valid (H : Host) (t : Int) :
    formatMoment H ⟨some t, .en⟩ "DD MMM YYYY"
      = String.mk (zeroFill (DateFromTime (LocalTime H.LocalTZA t)) 2
          ++ ' ' :: (monthsShort.getD (MonthFromTime (LocalTime H.LocalTZA t)).toNat "").data
          ++ ' ' :: zeroFill (YearFromTime (LocalTime H.LocalTZA t)) 4) := by
  simp [formatMoment, formattingTokens, formatToken]

/-- Time values within range pass `TimeClip` unchanged. -/
theorem TimeClip_of_range (t : Int) (h : -8640000000000000 ≤ t ∧ t ≤ 8640000000000000) :
    TimeClip t = some t := by
  unfold TimeClip
  rw [if_neg (by omega)]

/-- A month starts within the first 335 days of its year. -/
theorem daysBeforeMonth_range (m l : Int) (hl : 0 ≤ l ∧ l ≤ 1) :
    0 ≤ daysBeforeMonth m l ∧ daysBeforeMonth m l ≤ 335 := by
  unfold daysBeforeMonth
  omega

/-- Day numbers of the dates of years 0..10400. -/
theorem MakeDay_range (y m d : Int) (hy : 0 ≤ y ∧ y ≤ 10400) (hm : 0 ≤ m ∧ m ≤ 11)
    (hd : 1 ≤ d ∧ d ≤ 31) :
    -719528 ≤ MakeDay y m d ∧ MakeDay y m d ≤ 3080000 := by
  have hmq : m / 12 = 0 := by omega
  have hmr : m % 12 = m := by omega
  have hb := daysBeforeMonth_range m (if DaysInYear y = 365 then 0 else 1)
    (by split_ifs <;> omega)
  unfold MakeDay
  simp only [hmq, hmr, add_zero]
  generalize daysBeforeMonth m (if DaysInYear y = 365 then 0 else 1) = b at hb
  unfold DayFromYear
  omega

/-- Month lengths repeat every 400 years. -/
theorem daysInMonth_add_400 (y m : Int) (hm : 0 ≤ m ∧ m ≤ 11) :
    daysInMonth (y + 400) m = daysInMonth y m := by
  rw [daysInMonth_eq _ _ hm, daysInMonth_eq _ _ hm]
  have : DaysInYear (y + 400) = DaysInYear y := by
    unfold DaysInYear
    have e4 : (y + 400) % 4 = y % 4 := by omega
    have e100 : (y + 400) % 100 = y % 100 := by omega
    have e400 : (y + 400) % 400 = y % 400 := by omega
    rw [e4, e100, e400]
  rw [this]

/-- A month has 28 to 31 days. -/
theorem daysInMonth_range (y m : Int) (hm : 0 ≤ m ∧ m ≤ 11) :
    28 ≤ daysInMonth y m ∧ daysInMonth y m ≤ 31 := by
  rw [daysInMonth_eq y m hm]
  split_ifs <;> omega

/-- A local time on a day of years 0..10400, converted to UTC in a zone within a day of
UTC, is a time value within range. -/
theorem TimeClip_UTC (tza : Int → Bool → Int) (day tod : Int)
    (htz : ∀ t b, -msPerDay ≤ tza t b ∧ tza t b ≤ msPerDay)
    (hday : -719528 ≤ day ∧ day ≤ 3080000) (htod : 0 ≤ tod ∧ tod < msPerDay) :
    TimeClip (UTC tza (MakeDate day tod)) = some (UTC tza (MakeDate day tod)) := by
  apply TimeClip_of_range
  have := htz (MakeDate day tod) false
  unfold UTC
  generalize tza (MakeDate day tod) false = o at this
  unfold MakeDate msPerDay at *
  omega

/-- Reading back in local time the UTC time value of a local time `t`, in a zone that
skips less than half a day at a time: a local time at most that much later. -/
theorem LocalTime_UTC (tza : Int → Bool → Int) (day tod : Int)
    (hskip : ∀ t, 0 ≤ LocalTime tza (UTC tza t) - t
      ∧ 2 * (LocalTime tza (UTC tza t) - t) < msPerDay) :
    ∃ skip : Int, 0 ≤ skip ∧ 2 * skip < msPerDay
      ∧ LocalTime tza (UTC tza (MakeDate day tod)) = MakeDate day (tod + skip) := by
  refine ⟨LocalTime tza (UTC tza (MakeDate day tod)) - MakeDate day tod,
    (hskip _).1, (hskip _).2, ?_⟩
  unfold MakeDate
  omega

/-- The function `createDate` on a valid calendar date of years 0..9999, in a zone within a
day of UTC that skips less than half a day at a time: a time value whose local time falls on
that date. -/
theorem createDate_valid (tza : Int → Bool → Int) (y m d : Int)
    (htz : ∀ t b, -msPerDay ≤ tza t b ∧ tza t b ≤ msPerDay)
    (hskip : ∀ t, 0 ≤ LocalTime tza (UTC tza t) - t
      ∧ 2 * (LocalTime tza (UTC tza t) - t) < msPerDay)
    (hy : 0 ≤ y ∧ y ≤ 9999) (hm : 0 ≤ m ∧ m ≤ 11) (hd : 1 ≤ d ∧ d ≤ daysInMonth y m) :
    ∃ u tod : Int, createDate tza y m d 0 0 0 0 = some u
      ∧ LocalTime tza u = MakeDate (MakeDay y m d) tod ∧ 0 ≤ tod ∧ tod < msPerDay := by
  have hdr := daysInMonth_range y m hm
  have hr := MakeDay_range y m d (by omega) hm (by omega)
  have hmt : MakeTime 0 0 0 0 = 0 := rfl
  have hD : msPerDay = 86400000 := rfl
  unfold createDate
  by_cases hs : y < 100 ∧ 0 ≤ y
  · rw [if_pos hs]
    have hr4 := MakeDay_range (y + 400) m d (by omega) hm (by omega)
    have hnew : newDate tza (y + 400) m d 0 0 0 0
        = some (UTC tza (MakeDate (MakeDay (y + 400) m d) 0)) := by
      unfold newDate
      simp only [hmt]
      rw [if_neg (by omega)]
      exact TimeClip_UTC tza _ 0 htz hr4 (by omega)
    obtain ⟨s1, h10, h11, hl1⟩ := LocalTime_UTC tza (MakeDay (y + 400) m d) 0 hskip
    have hrt := MakeDay_roundtrip (y + 400) m d (0 + s1) hm
      (by rw [daysInMonth_add_400 y m hm]; exact hd) (by omega)
    simp only [hnew, getFullYear, Option.map_some', Option.isSome_some, if_true, setFullYear]
    rw [hl1, hrt.2.1, hrt.2.2.1, hrt.2.2.2]
    obtain ⟨s2, h20, h21, hl2⟩ := LocalTime_UTC tza (MakeDay y m d) (0 + s1) hskip
    refine ⟨UTC tza (MakeDate (MakeDay y m d) (0 + s1)), 0 + s1 + s2,
      TimeClip_UTC tza _ _ htz hr (by omega), hl2, by omega, by omega⟩
  · rw [if_neg hs]
    obtain ⟨s1, h10, h11, hl1⟩ := LocalTime_UTC tza (MakeDay y m d) 0 hskip
    refine ⟨UTC tza (MakeDate (MakeDay y m d) 0), 0 + s1, ?_, hl1, by omega, by omega⟩
    unfold newDate
    simp only [hmt]
    rw [if_neg (by omega)]
    exact TimeClip_UTC tza _ 0 htz hr (by omega)

/-- A month and day within range do not overflow. -/
theorem checkOverflow_valid (y m d : Int) (hm : 0 ≤ m ∧ m ≤ 11)
    (hd : 1 ≤ d ∧ d ≤ daysInMonth y m) : checkOverflow y m d = -1 := by
  unfold checkOverflow
  rw [if_neg (by omega), if_neg (by omega)]

/-- The units of a valid calendar date of years 0..9999 give a time value whose local time
falls on that date. -/
theorem configFromArray_valid (H : Host) (y m d : Int)
    (htz : ∀ t b, -msPerDay ≤ H.LocalTZA t b ∧ H.LocalTZA t b ≤ msPerDay)
    (hskip : ∀ t, 0 ≤ LocalTime H.LocalTZA (UTC H.LocalTZA t) - t
      ∧ 2 * (LocalTime H.LocalTZA (UTC H.LocalTZA t) - t) < msPerDay)
    (hy : 0 ≤ y ∧ y ≤ 9999) (hm : 0 ≤ m ∧ m ≤ 11) (hd : 1 ≤ d ∧ d ≤ daysInMonth y m) :
    ∃ u tod : Int, configFromArray H (y, m, d) = some u
      ∧ LocalTime H.LocalTZA u = MakeDate (MakeDay y m d) tod ∧ 0 ≤ tod ∧ tod < msPerDay := by
  obtain ⟨u, tod, hc, hl, h0, h1⟩ := createDate_valid H.LocalTZA y m d htz hskip hy hm hd
  refine ⟨u, tod, ?_, hl, h0, h1⟩
  unfold configFromArray
  simp only [hc, checkOverflow_valid y m d hm hd]
  rfl

/-- Moment counts the days of a month as the Gregorian calendar does. -/
theorem gregorianMonthLength_eq (y m : Nat) (hm : 1 ≤ m ∧ m ≤ 12) :
    daysInMonth (y : Int) ((m : Int) - 1) = (gregorianMonthLength y m : Int) := by
  rw [daysInMonth_eq _ _ (by omega)]
  unfold gregorianMonthLength DaysInYear
  obtain ⟨h1, h2⟩ := hm
  interval_cases m <;> simp
  split_ifs <;> omega

/-- A calendar-date string is not the empty string. -/
theorem isoDateString_ne_empty (y m d : Nat) : isoDateString y m d ≠ "" := by
  intro h
  have := congrArg String.length h
  simp [isoDateString, fourDigits, twoDigits, String.length] at this

/-- A non-empty string goes to `configFromString`, and the moment built from it carries
the library's locale. -/
theorem prepareConfig_string (H : Host) (s : String) (rt : Runtime) (hs : s ≠ "") :
    prepareConfig H (.string s) rt
      = ⟨.ok ⟨(configFromString H s rt).1, .en⟩, (configFromString H s rt).2.1,
          (configFromString H s rt).2.2⟩ := by
  simp [prepareConfig, configFromInput, isMoment, hs]

/-- What `moment` builds from the calendar-date string of a valid date of years 0..9999: a
moment whose local time falls on that date, with no warning. -/
theorem createLocal_isoDateString (H : Host) (rt : Runtime) (y m d : Nat)
    (htz : ∀ t b, -msPerDay ≤ H.LocalTZA t b ∧ H.LocalTZA t b ≤ msPerDay)
    (hskip : ∀ t, 0 ≤ LocalTime H.LocalTZA (UTC H.LocalTZA t) - t
      ∧ 2 * (LocalTime H.LocalTZA (UTC H.LocalTZA t) - t) < msPerDay)
    (hy : y ≤ 9999) (hm : 1 ≤ m ∧ m ≤ 12) (hd : 1 ≤ d ∧ d ≤ gregorianMonthLength y m) :
    ∃ u tod : Int, createLocal H (.string (isoDateString y m d)) rt = ⟨.ok ⟨some u, .en⟩, rt, []⟩
      ∧ LocalTime H.LocalTZA u = MakeDate (MakeDay y ((m : Int) - 1) d) tod
      ∧ 0 ≤ tod ∧ tod < msPerDay := by
  have hg := gregorianMonthLength_eq y m hm
  have hdr := daysInMonth_range (y : Int) ((m : Int) - 1) (by omega)
  have hiso := isoCalendarDate_isoDateString y m d (by omega) (by omega) (by omega)
  obtain ⟨u, tod, hc, hl, h0, h1⟩ := configFromArray_valid H (y : Int) ((m : Int) - 1) (d : Int)
    htz hskip (by omega) (by omega) (by omega)
  refine ⟨u, tod, ?_, hl, h0, h1⟩
  unfold createLocal
  simp only
  rw [prepareConfig_string H _ rt (isoDateString_ne_empty y m d)]
  unfold configFromString
  rw [hiso]
  simp only [hc]

/-- An event whose `date` is a string is neither `null` nor `undefined`. -/
theorem get_string_not_nullish (event : JsValue) (s : String)
    (h : event.get "date" = .string s) : event.isNullish = false := by
  cases event <;> simp_all [JsValue.get, JsValue.isNullish]

/-- The parse-and-format step on the moment library, for an event that is neither `null`
nor `undefined`: the rendering of `moment(event.date)`, or what either call throws; the
library is left in the state `moment` left it in, and the console has the warnings of
`moment`. -/
theorem parseAndFormat_momentJs (H : Host) (event : JsValue) (p : Proc Runtime)
    (h : event.isNullish = false) :
    parseAndFormat (momentJs H) event p
      = ((createLocal H (event.get "date") p.lib).result.bind
            fun m => m.format H "DD MMM YYYY",
          { p with lib := (createLocal H (event.get "date") p.lib).state,
                   stderr := p.stderr ++ (createLocal H (event.get "date") p.lib).warnings }) := by
  rw [parseAndFormat_eq _ _ h]
  simp only [Js.bind, Js.call, momentJs]
  cases (createLocal H (event.get "date") p.lib).result with
  | error e => rfl
  | ok m => simp [Except.bind]

/-- The zone of `saoPauloHost` is within a day of UTC. -/
theorem saoPaulo_within_a_day (t : Int) (b : Bool) :
    -msPerDay ≤ saoPauloHost.LocalTZA t b ∧ saoPauloHost.LocalTZA t b ≤ msPerDay := by
  show -msPerDay ≤ saoPauloLocalTZA t b ∧ saoPauloLocalTZA t b ≤ msPerDay
  unfold saoPauloLocalTZA msPerDay
  cases b <;> simp only [if_true, Bool.false_eq_true, if_false] <;> split_ifs <;> omega

/-- The zone of `saoPauloHost` skips an hour of local time and no more. -/
theorem saoPaulo_skips_an_hour (t : Int) :
    0 ≤ LocalTime saoPauloHost.LocalTZA (UTC saoPauloHost.LocalTZA t) - t
      ∧ 2 * (LocalTime saoPauloHost.LocalTZA (UTC saoPauloHost.LocalTZA t) - t)
          < msPerDay := by
  show 0 ≤ LocalTime saoPauloLocalTZA (UTC saoPauloLocalTZA t) - t
      ∧ 2 * (LocalTime saoPauloLocalTZA (UTC saoPauloLocalTZA t) - t) < msPerDay
  unfold LocalTime UTC saoPauloLocalTZA msPerDay
  simp only [if_true, Bool.false_eq_true, if_false]
  split_ifs <;> omega

/-- Counterexample to C1: on a host in the zone `Pacific/Apia`, whose calendar went from 29
to 31 December 2011, the valid calendar date `2011-12-30` is logged as `31 Dec 2011`, not as
`30 Dec 2011`. -/
theorem skipped_day_is_logged_as_next_day :
    (30 ≤ gregorianMonthLength 2011 12)
      ∧ isoDateString 2011 12 30 = "2011-12-30"
      ∧ dayMonthYear 2011 12 30 = "30 Dec 2011"
      ∧ (lambdaHandler (momentJs apiaHost) (eventWithDate (.string "2011-12-30")) .undefined
          (freshProc 0)).2.stdout = [.string "31 Dec 2011"] :=
  ⟨by decide, by decide, by decide, rfl⟩

/-- C1, amended: for every event whose `date` is the ISO 8601 calendar-date string
`YYYY-MM-DD` of a valid Gregorian date of a year in 0000..9999, on every host whose zone is
within a day of UTC and skips less than half a day of local time at a time, `lambdaHandler`
fulfils and logs exactly `DD MMM YYYY`: the same two-digit day, the three-letter
abbreviation of the month, and the same four-digit year. -/
theorem lambdaHandler_formats_iso_calendar_date (H : Host) (event context : JsValue)
    (p : Proc Runtime) (y m d : Nat)
    (htz : ∀ t b, -msPerDay ≤ H.LocalTZA t b ∧ H.LocalTZA t b ≤ msPerDay)
    (hskip : ∀ t, 0 ≤ LocalTime H.LocalTZA (UTC H.LocalTZA t) - t
      ∧ 2 * (LocalTime H.LocalTZA (UTC H.LocalTZA t) - t) < msPerDay)
    (hy : y ≤ 9999) (hm : 1 ≤ m ∧ m ≤ 12) (hd : 1 ≤ d ∧ d ≤ gregorianMonthLength y m)
    (hev : event.get "date" = .string (isoDateString y m d)) :
    lambdaHandler (momentJs H) event context p
      = (.fulfilled .undefined,
          { p with stdout := p.stdout ++ [.string (dayMonthYear y m d)] }) := by
  have hg := gregorianMonthLength_eq y m hm
  have hdr := daysInMonth_range (y : Int) ((m : Int) - 1) (by omega)
  obtain ⟨u, tod, hc, hl, h0, h1⟩ := createLocal_isoDateString H p.lib y m d htz hskip hy hm hd
  have hrt := MakeDay_roundtrip (y : Int) ((m : Int) - 1) (d : Int) tod (by omega) (by omega)
    ⟨h0, h1⟩
  have hstep : parseAndFormat (momentJs H) event p = (.ok (dayMonthYear y m d), p) := by
    rw [parseAndFormat_momentJs _ _ _ (get_string_not_nullish event _ hev), hev, hc]
    simp only [Except.bind, Moment.format, List.append_nil,
      formatMoment_valid, hl, hrt.1, hrt.2.1, hrt.2.2.1, zeroFill_two d (by omega),
      zeroFill_four y (by omega), monthsShort_eq m hm, dayMonthYear]
  rw [lambdaHandler_of_ok _ event context p p _ hstep]

/-- Witness of C1, amended: the two dates the specification names, on a UTC host, and the
date `2018-11-04` on a host in the zone `America/Sao_Paulo`, where the local midnight of that
date is skipped by the start of summer time. -/
theorem lambdaHandler_formats_iso_calendar_date_witness :
    lambdaHandler (momentJs utcHost) (eventWithDate (.string "2024-03-05")) .undefined
        (freshProc 0)
      = (.fulfilled .undefined,
          { freshProc 0 with stdout := (freshProc 0).stdout ++ [.string "05 Mar 2024"] })
    ∧ lambdaHandler (momentJs utcHost) (eventWithDate (.string "2024-12-31")) .undefined
        (freshProc 0)
      = (.fulfilled .undefined,
          { freshProc 0 with stdout := (freshProc 0).stdout ++ [.string "31 Dec 2024"] })
    ∧ lambdaHandler (momentJs saoPauloHost) (eventWithDate (.string "2018-11-04")) .undefined
        (freshProc 0)
      = (.fulfilled .undefined,
          { freshProc 0 with stdout := (freshProc 0).stdout ++ [.string "04 Nov 2018"] }) :=
  ⟨lambdaHandler_formats_iso_calendar_date utcHost (eventWithDate (.string "2024-03-05"))
      .undefined (freshProc 0) 2024 3 5 (fun _ _ => by simp [utcHost, msPerDay])
      (fun t => by simp [LocalTime, UTC, utcHost, msPerDay])
      (by decide) (by decide) (by decide) rfl,
   lambdaHandler_formats_iso_calendar_date utcHost (eventWithDate (.string "2024-12-31"))
      .undefined (freshProc 0) 2024 12 31 (fun _ _ => by simp [utcHost, msPerDay])
      (fun t => by simp [LocalTime, UTC, utcHost, msPerDay])
      (by decide) (by decide) (by decide) rfl,
   lambdaHandler_formats_iso_calendar_date saoPauloHost
      (eventWithDate (.string "2018-11-04")) .undefined (freshProc 0) 2018 11 4
      saoPaulo_within_a_day saoPaulo_skips_an_hour (by decide) (by decide) (by decide) rfl⟩

/-! ## The handler on the moment library -/


/-- An invalid moment with the library's locale is rendered as the locale's invalid-date
text. -/
theorem formatMoment_invalid (H : Host) (m : Moment) (pattern : String)
    (h : m.isValid = false) : formatMoment H m pattern = "Invalid date" := by
  cases m with
  | mk d l =>
    cases d with
    | none => rfl
    | some t => simp [Moment.isValid] at h

/-- The lines logged by an invocation whose `stdout` after is the `stdout` before plus
lines. -/
theorem loggedBy_of_append {σ : Type} (run : Proc σ → Completion × Proc σ) (p : Proc σ)
    (lines : List JsValue) (h : (run p).2.stdout = p.stdout ++ lines) :
    loggedBy run p = lines := by
  unfold loggedBy
  rw [h, List.drop_left]

/-- The warnings of an invocation whose `stderr` after is the `stderr` before plus lines. -/
theorem warnedBy_of_append {σ : Type} (run : Proc σ → Completion × Proc σ) (p : Proc σ)
    (lines : List JsValue) (h : (run p).2.stderr = p.stderr ++ lines) :
    warnedBy run p = lines := by
  unfold warnedBy
  rw [h, List.drop_left]

/-- One invocation on the moment library, for an event that is neither `null` nor
`undefined`: the promise fulfils with `undefined`, the library is left as `moment` left it,
`stdout` has one more line, the outcome of the parse-and-format step, and `stderr` has the
warnings of `moment`. -/
theorem lambdaHandler_momentJs (H : Host) (event context : JsValue) (p : Proc Runtime)
    (h : event.isNullish = false) :
    lambdaHandler (momentJs H) event context p
      = (.fulfilled .undefined,
          { lib := (createLocal H (event.get "date") p.lib).state,
            stdout := p.stdout ++ [loggedLine ((createLocal H (event.get "date") p.lib).result.bind
              fun m => m.format H "DD MMM YYYY")],
            stderr := p.stderr ++ (createLocal H (event.get "date") p.lib).warnings }) := by
  have hstep := parseAndFormat_momentJs H event p h
  cases hr : (createLocal H (event.get "date") p.lib).result.bind
      (fun m => m.format H "DD MMM YYYY") with
  | ok s =>
    rw [hr] at hstep
    rw [lambdaHandler_of_ok _ event context p _ s hstep]
    rfl
  | error e =>
    rw [hr] at hstep
    rw [lambdaHandler_of_error _ event context p _ e hstep]
    rfl

/-- One invocation on a `null` or `undefined` event: the promise fulfils with `undefined`,
the `TypeError` of the destructuring is the one line logged, and nothing else changes. -/
theorem lambdaHandler_nullish (H : Host) (event context : JsValue) (p : Proc Runtime)
    (h : event.isNullish = true) :
    ∃ e : JsValue, destructureDate event = .error e
      ∧ lambdaHandler (momentJs H) event context p
        = (.fulfilled .undefined, { p with stdout := p.stdout ++ [e] }) := by
  cases event <;> simp [JsValue.isNullish] at h
  · exact ⟨_, rfl, rfl⟩
  · exact ⟨_, rfl, rfl⟩

/-- The warnings of `moment`: none, or the one deprecation warning of a process in which
none was issued before, after which the flag is set. -/
theorem createLocal_warnings (H : Host) (input : JsValue) (rt : Runtime) :
    ((createLocal H input rt).warnings = [] ∧ (createLocal H input rt).state = rt)
      ∨ (rt.warned = false ∧ (createLocal H input rt).state.warned = true
          ∧ ∃ w : JsValue, (createLocal H input rt).warnings = [w]) := by
  have hfb : ∀ s : String,
      ((createFromInputFallback H s rt).2.2 = [] ∧ (createFromInputFallback H s rt).2.1 = rt)
        ∨ (rt.warned = false ∧ (createFromInputFallback H s rt).2.1.warned = true
            ∧ ∃ w : JsValue, (createFromInputFallback H s rt).2.2 = [w]) := by
    intro s
    unfold createFromInputFallback
    cases hw : rt.warned with
    | true => left; simp
    | false => right; simp
  cases input with
  | undefined => left; exact ⟨rfl, rfl⟩
  | null => left; exact ⟨rfl, rfl⟩
  | number n => left; exact ⟨rfl, rfl⟩
  | date t => left; exact ⟨rfl, rfl⟩
  | bool b => exact hfb _
  | error name message => exact hfb _
  | array items =>
    cases items with
    | nil => left; exact ⟨rfl, rfl⟩
    | cons x xs => left; exact ⟨rfl, rfl⟩
  | object fields =>
    cases fields with
    | nil => left; exact ⟨rfl, rfl⟩
    | cons x xs =>
      left
      simp only [createLocal, prepareConfig]
      split_ifs <;> exact ⟨rfl, rfl⟩
  | string s =>
    by_cases hs : s = ""
    · subst hs; left; exact ⟨rfl, rfl⟩
    · simp only [createLocal, prepareConfig_string H s _ hs]
      unfold configFromString
      cases isoCalendarDate s with
      | some a => left; exact ⟨rfl, rfl⟩
      | none =>
        simp only
        cases H.otherFormats s with
        | some d => left; exact ⟨rfl, rfl⟩
        | none => exact hfb s

/-- What `moment` returns or throws for an input that does not consult the clock is the
same in every state of the library. -/
theorem createLocal_clock_free (H : Host) (input : JsValue) (rt₁ rt₂ : Runtime)
    (h : readsClock input = false) :
    (createLocal H input rt₁).result = (createLocal H input rt₂).result := by
  cases input with
  | undefined => simp [readsClock] at h
  | array items => simp [readsClock] at h
  | object fields => simp [readsClock] at h
  | null => rfl
  | bool b => rfl
  | number n => rfl
  | date t => rfl
  | error name message => rfl
  | string s =>
    by_cases hs : s = ""
    · subst hs; rfl
    · simp only [createLocal, prepareConfig_string H s _ hs]
      unfold configFromString
      cases isoCalendarDate s with
      | some a => rfl
      | none =>
        simp only
        cases H.otherFormats s with
        | some d => rfl
        | none => rfl

/-- What `moment` returns or throws depends on the state of the library through the clock
reading only. -/
theorem createLocal_same_clock (H : Host) (input : JsValue) (rt₁ rt₂ : Runtime)
    (h : rt₁.now = rt₂.now) :
    (createLocal H input rt₁).result = (createLocal H input rt₂).result := by
  by_cases hc : readsClock input = false
  · exact createLocal_clock_free H input rt₁ rt₂ hc
  · cases input with
    | undefined => simp [createLocal, prepareConfig, configFromInput, isMoment, h]
    | array items =>
      cases items with
      | nil => simp [createLocal, prepareConfig, configFromInput, isMoment, h]
      | cons x xs => simp [createLocal, prepareConfig, configFromInput, isMoment, h]
    | object fields =>
      cases fields with
      | nil => simp [createLocal, prepareConfig, configFromInput, isMoment, h]
      | cons x xs =>
        simp only [createLocal, prepareConfig]
        split_ifs <;> simp [configFromInput, h]
    | null => simp [readsClock] at hc
    | bool b => simp [readsClock] at hc
    | number n => simp [readsClock] at hc
    | date t => simp [readsClock] at hc
    | error name message => simp [readsClock] at hc
    | string s => simp [readsClock] at hc

/-- The warnings of `moment` depend on the state of the library through the warning flag
only. -/
theorem createLocal_same_flag (H : Host) (input : JsValue) (rt₁ rt₂ : Runtime)
    (h : rt₁.warned = rt₂.warned) :
    (createLocal H input rt₁).warnings = (createLocal H input rt₂).warnings := by
  have hfb : ∀ s : String,
      (createFromInputFallback H s rt₁).2.2 = (createFromInputFallback H s rt₂).2.2 := by
    intro s
    simp [createFromInputFallback, h]
  cases input with
  | undefined => rfl
  | null => rfl
  | number n => rfl
  | date t => rfl
  | bool b => exact hfb _
  | error name message => exact hfb _
  | array items =>
    cases items with
    | nil => rfl
    | cons x xs => rfl
  | object fields =>
    cases fields with
    | nil => rfl
    | cons x xs =>
      simp only [createLocal, prepareConfig]
      split_ifs <;> rfl
  | string s =>
    by_cases hs : s = ""
    · subst hs; rfl
    · simp only [createLocal, prepareConfig_string H s _ hs]
      unfold configFromString
      cases isoCalendarDate s with
      | some a => rfl
      | none =>
        simp only
        cases H.otherFormats s with
        | some d => rfl
        | none => exact hfb s

/-- A string gives a moment with the library's locale, and `moment` does not throw on it. -/
theorem createLocal_string (H : Host) (s : String) (rt : Runtime) :
    ∃ d : Option Int, (createLocal H (.string s) rt).result = .ok ⟨d, .en⟩ := by
  by_cases hs : s = ""
  · subst hs; exact ⟨none, rfl⟩
  · exact ⟨_, by rw [show createLocal H (.string s) rt = prepareConfig H (.string s) rt from rfl,
      prepareConfig_string H s rt hs]⟩

/-- Every character `decimalAux` writes is a digit. -/
theorem decimalAux_digits (fuel : Nat) : ∀ (n : Nat) (acc : List Char),
    acc.all isDigit = true → (decimalAux fuel n acc).all isDigit = true := by
  induction fuel with
  | zero => intro n acc h; simpa [decimalAux] using h
  | succ k ih =>
    intro n acc h
    unfold decimalAux
    split_ifs with hn
    · simp only [List.all_cons, isDigit_digitChar, h, Bool.and_self]
    · apply ih
      simp only [List.all_cons, isDigit_digitChar, h, Bool.and_self]

/-- A decimal numeral consists of digits. -/
theorem decimal_digits (n : Nat) : (decimal n).all isDigit = true :=
  decimalAux_digits (n + 1) n [] rfl

/-- The zero-padded numeral of a natural number: digits only, at least the target length. -/
theorem zeroFill_nonneg (n : Int) (k : Nat) (h : 0 ≤ n) :
    (zeroFill n k).all isDigit = true ∧ k ≤ (zeroFill n k).length := by
  unfold zeroFill
  simp only [h, if_true, List.nil_append]
  constructor
  · rw [List.all_append, decimal_digits]
    simp only [Bool.and_true, List.all_eq_true]
    intro c hc
    rw [List.eq_of_mem_replicate hc]
    rfl
  · rw [List.length_append, List.length_replicate]
    omega

/-- The zero-padded numeral of a negative number: a minus sign, then digits only, at least
the target length. -/
theorem zeroFill_neg (n : Int) (k : Nat) (h : n < 0) :
    ∃ ds : List Char, zeroFill n k = '-' :: ds ∧ ds.all isDigit = true ∧ k ≤ ds.length := by
  refine ⟨List.replicate (k - (decimal n.natAbs).length) '0' ++ decimal n.natAbs, ?_, ?_, ?_⟩
  · unfold zeroFill
    simp only [not_le.2 h, if_false, List.cons_append, List.nil_append, List.append_assoc]
  · rw [List.all_append, decimal_digits]
    simp only [Bool.and_true, List.all_eq_true]
    intro c hc
    rw [List.eq_of_mem_replicate hc]
    rfl
  · rw [List.length_append, List.length_replicate]
    omega

/-- The year numeral `zeroFill` writes on four digits is a year numeral. -/
theorem isYearNumeral_zeroFill (y : Int) : isYearNumeral (zeroFill y 4) = true := by
  by_cases h : 0 ≤ y
  · obtain ⟨hd, hl⟩ := zeroFill_nonneg y 4 h
    generalize zeroFill y 4 = cs at hd hl
    unfold isYearNumeral
    split
    · rename_i ds
      simp only [List.all_cons] at hd
      have : isDigit '-' = false := by decide
      simp [this] at hd
    · simp [hd, hl]
  · obtain ⟨ds, he, hd, hl⟩ := zeroFill_neg y 4 (by omega)
    rw [he]
    simp [isYearNumeral, hd, hl]

/-- The two digits of a day of month are a day of month. -/
theorem isDayOfMonth_zeroFill (d : Int) (h : 1 ≤ d ∧ d ≤ 31) :
    ∃ a b : Char, zeroFill d 2 = [a, b] ∧ isDayOfMonth a b = true := by
  obtain ⟨n, rfl⟩ := Int.eq_ofNat_of_zero_le (by omega : 0 ≤ d)
  refine ⟨digitChar (n / 10), digitChar n, ?_, ?_⟩
  · rw [zeroFill_two n (by omega)]; rfl
  · have := toInt_twoDigits n (by omega)
    unfold twoDigits at this
    simp only [isDayOfMonth, isDigit_digitChar, this, Bool.true_and, Bool.and_eq_true,
      decide_eq_true_eq]
    omega

/-- The short month names are month abbreviations of three letters. -/
theorem isMonthAbbrev_monthsShort (m : Int) (h : 0 ≤ m ∧ m ≤ 11) :
    ∃ a b c : Char, (monthsShort.getD m.toNat "").data = [a, b, c]
      ∧ isMonthAbbrev a b c = true := by
  obtain ⟨n, rfl⟩ := Int.eq_ofNat_of_zero_le h.1
  have hn : n ≤ 11 := by omega
  simp only [Int.toNat_ofNat]
  interval_cases n <;> exact ⟨_, _, _, rfl, by decide⟩

/-- The rendering of every valid moment conforms to the pattern with the year as moment
writes it. -/
theorem conformsExpandedYear_formatMoment (H : Host) (t : Int) :
    conformsExpandedYear (formatMoment H ⟨some t, .en⟩ "DD MMM YYYY") = true := by
  rw [formatMoment_valid]
  obtain ⟨a, b, hd, hab⟩ := isDayOfMonth_zeroFill _ (DateFromTime_range (LocalTime H.LocalTZA t))
  obtain ⟨m1, m2, m3, hm, hmm⟩ := isMonthAbbrev_monthsShort _
    (MonthFromTime_range (LocalTime H.LocalTZA t))
  rw [hd, hm]
  simp [conformsExpandedYear, hab, hmm, isYearNumeral_zeroFill]

/-- The rendering of a valid moment whose local year lies in 0..9999 conforms to the
pattern `DD MMM YYYY`. -/
theorem conformsDDMMMYYYY_formatMoment (H : Host) (t : Int)
    (hy : 0 ≤ YearFromTime (LocalTime H.LocalTZA t)
      ∧ YearFromTime (LocalTime H.LocalTZA t) ≤ 9999) :
    conformsDDMMMYYYY (formatMoment H ⟨some t, .en⟩ "DD MMM YYYY") = true := by
  rw [formatMoment_valid]
  obtain ⟨a, b, hd, hab⟩ := isDayOfMonth_zeroFill _ (DateFromTime_range (LocalTime H.LocalTZA t))
  obtain ⟨m1, m2, m3, hm, hmm⟩ := isMonthAbbrev_monthsShort _
    (MonthFromTime_range (LocalTime H.LocalTZA t))
  obtain ⟨n, hn⟩ := Int.eq_ofNat_of_zero_le hy.1
  rw [hd, hm, hn, zeroFill_four n (by omega)]
  simp [conformsDDMMMYYYY, hab, hmm, fourDigits, isDigit_digitChar]


/-! ## Unparseable, missing and far-away dates; the console -/

/-- C3: for every event whose `date` is a string that `moment` cannot parse as a date,
`lambdaHandler` fulfils with `undefined`, nothing is thrown past it, and the one line it logs
is the invalid-date description `Invalid date`, which is not a formatted date (in the
pattern of the specification or with a longer year). -/
theorem lambdaHandler_logs_invalid_date (H : Host) (event context : JsValue)
    (p : Proc Runtime) (s : String) (m : Moment) (hev : event.get "date" = .string s)
    (hm : (createLocal H (.string s) p.lib).result = .ok m)
    (hbad : m.isValid = false) :
    (lambdaHandler (momentJs H) event context p).1 = Completion.fulfilled JsValue.undefined
      ∧ (lambdaHandler (momentJs H) event context p).2.stdout
          = p.stdout ++ [.string "Invalid date"]
      ∧ conformsDDMMMYYYY "Invalid date" = false
      ∧ conformsExpandedYear "Invalid date" = false := by
  obtain ⟨d, hd⟩ := createLocal_string H s p.lib
  rw [hd] at hm
  have hm' : m = ⟨d, .en⟩ := by injection hm with h; exact h.symm
  subst hm'
  rw [lambdaHandler_momentJs H event context p (get_string_not_nullish event s hev), hev, hd]
  simp only [Except.bind, Moment.format, loggedLine, formatMoment_invalid H _ _ hbad]
  exact ⟨trivial, trivial, by decide, by decide⟩

/-- Witness of C3: the string `not-a-date`, on a host whose fallback parser rejects it. -/
theorem lambdaHandler_logs_invalid_date_witness :
    (eventWithDate (.string "not-a-date")).get "date" = .string "not-a-date"
      ∧ (createLocal utcHost (.string "not-a-date") (freshProc 0).lib).result
          = .ok ⟨none, .en⟩
      ∧ (Moment.mk none Locale.en).isValid = false
      ∧ (lambdaHandler (momentJs utcHost) (eventWithDate (.string "not-a-date")) .undefined
          (freshProc 0)).1 = Completion.fulfilled JsValue.undefined
      ∧ (lambdaHandler (momentJs utcHost) (eventWithDate (.string "not-a-date")) .undefined
          (freshProc 0)).2.stdout = (freshProc 0).stdout ++ [.string "Invalid date"]
      ∧ conformsDDMMMYYYY "Invalid date" = false
      ∧ conformsExpandedYear "Invalid date" = false :=
  ⟨rfl, rfl, rfl, lambdaHandler_logs_invalid_date utcHost
    (eventWithDate (.string "not-a-date")) .undefined (freshProc 0) "not-a-date" ⟨none, .en⟩
    rfl rfl rfl⟩

/-- Counterexample to C4: the empty event `{}` at clock reading 2024-03-05T00:00:00Z on a UTC
host logs `05 Mar 2024`, a formatted date, and no error description. -/
theorem missing_date_logs_formatted_date :
    (lambdaHandler (momentJs utcHost) (.object []) .undefined
        (freshProc 1709596800000)).2.stdout = [.string "05 Mar 2024"]
      ∧ conformsDDMMMYYYY "05 Mar 2024" = true :=
  ⟨rfl, by decide⟩

/-- C4, amended: for every event object without a `date` field, `lambdaHandler` fulfils with
`undefined` and the one line it logs is the rendering of the current clock reading, which
conforms to the date pattern whenever the clock reading is a time value. -/
theorem lambdaHandler_missing_date_logs_now (H : Host) (fields : List (String × JsValue))
    (context : JsValue) (p : Proc Runtime) (h : fields.lookup "date" = none) :
    lambdaHandler (momentJs H) (.object fields) context p
        = (.fulfilled .undefined,
            { p with stdout := p.stdout
                ++ [.string (formatMoment H ⟨TimeClip p.lib.now, .en⟩ "DD MMM YYYY")] })
      ∧ ((TimeClip p.lib.now).isSome = true →
          conformsExpandedYear (formatMoment H ⟨TimeClip p.lib.now, .en⟩ "DD MMM YYYY")
            = true) := by
  constructor
  · have hget : (JsValue.object fields).get "date" = .undefined := by
      simp [JsValue.get, h]
    rw [lambdaHandler_momentJs H (.object fields) context p rfl, hget]
    simp [createLocal, prepareConfig, configFromInput, isMoment, Except.bind, Moment.format,
      loggedLine]
  · intro hc
    cases ht : TimeClip p.lib.now with
    | none => rw [ht] at hc; simp at hc
    | some t => exact conformsExpandedYear_formatMoment H t

/-- Witness of C4, amended: an event with an `id` and no `date`. -/
theorem lambdaHandler_missing_date_logs_now_witness :
    lambdaHandler (momentJs utcHost) (.object [("id", .number 7)]) .undefined
          (freshProc 1709596800000)
        = (.fulfilled .undefined,
            { freshProc 1709596800000 with stdout := (freshProc 1709596800000).stdout
                ++ [.string (formatMoment utcHost
                      ⟨TimeClip (freshProc 1709596800000).lib.now, .en⟩ "DD MMM YYYY")] })
      ∧ ((TimeClip (freshProc 1709596800000).lib.now).isSome = true →
          conformsExpandedYear (formatMoment utcHost
            ⟨TimeClip (freshProc 1709596800000).lib.now, .en⟩ "DD MMM YYYY") = true) :=
  lambdaHandler_missing_date_logs_now utcHost [("id", .number 7)] .undefined
    (freshProc 1709596800000) rfl

/-- Counterexample to C5: the event with `date` the string `not-a-date`, on a fresh process:
the invocation writes two lines to the console, the deprecation warning of moment with
`console.warn` and then `Invalid date` with `console.log`. -/
theorem unparseable_date_writes_two_lines :
    (lambdaHandler (momentJs utcHost) (eventWithDate (.string "not-a-date")) .undefined
        (freshProc 0)).2.stdout = [.string "Invalid date"]
      ∧ (lambdaHandler (momentJs utcHost) (eventWithDate (.string "not-a-date")) .undefined
          (freshProc 0)).2.stderr
          = [.string (utcHost.deprecationWarning "not-a-date")]
      ∧ (loggedBy (lambdaHandler (momentJs utcHost) (eventWithDate (.string "not-a-date"))
            .undefined) (freshProc 0)).length
          + (warnedBy (lambdaHandler (momentJs utcHost) (eventWithDate (.string "not-a-date"))
            .undefined) (freshProc 0)).length = 2 :=
  ⟨rfl, rfl, rfl⟩

/-- C5, amended: one invocation writes exactly one line with `console.log`, the formatted
date when the parse-and-format step returned it and the thrown value when the step threw,
never both and never none; the only other line it can write to the console is the
deprecation warning of moment, with `console.warn`, and it writes that one at most once and
only in a process in which it was not written before. -/
theorem lambdaHandler_console_writes (H : Host) (event context : JsValue)
    (p : Proc Runtime) :
    (∃ line : JsValue,
        loggedBy (lambdaHandler (momentJs H) event context) p = [line]
          ∧ (((parseAndFormat (momentJs H) event p).1 = .error line)
              ∨ ∃ s : String, (parseAndFormat (momentJs H) event p).1 = .ok s
                  ∧ line = .string s))
      ∧ (warnedBy (lambdaHandler (momentJs H) event context) p = []
          ∨ (p.lib.warned = false
              ∧ (lambdaHandler (momentJs H) event context p).2.lib.warned = true
              ∧ ∃ w : JsValue, warnedBy (lambdaHandler (momentJs H) event context) p = [w]))
      ∧ (p.lib.warned = true →
          warnedBy (lambdaHandler (momentJs H) event context) p = []) := by
  have hlog : ∃ line : JsValue,
      loggedBy (lambdaHandler (momentJs H) event context) p = [line]
        ∧ (((parseAndFormat (momentJs H) event p).1 = .error line)
            ∨ ∃ s : String, (parseAndFormat (momentJs H) event p).1 = .ok s
                ∧ line = .string s) := by
    obtain ⟨line, h1, h2⟩ := lambdaHandler_stdout (momentJs H) event context p
    exact ⟨line, loggedBy_of_append _ p [line] h1, h2⟩
  have hwarn : warnedBy (lambdaHandler (momentJs H) event context) p = []
      ∨ (p.lib.warned = false
          ∧ (lambdaHandler (momentJs H) event context p).2.lib.warned = true
          ∧ ∃ w : JsValue, warnedBy (lambdaHandler (momentJs H) event context) p = [w]) := by
    by_cases hn : event.isNullish = true
    · obtain ⟨e, _, hr⟩ := lambdaHandler_nullish H event context p hn
      left
      apply warnedBy_of_append
      rw [hr]
      simp
    · have hn' : event.isNullish = false := by simpa using hn
      have hr := lambdaHandler_momentJs H event context p hn'
      rcases createLocal_warnings H (event.get "date") p.lib with ⟨h0, _⟩ | ⟨h1, h2, w, h3⟩
      · left
        apply warnedBy_of_append
        rw [hr, h0]
      · right
        refine ⟨h1, ?_, w, ?_⟩
        · rw [hr]; exact h2
        · apply warnedBy_of_append
          rw [hr, h3]
  refine ⟨hlog, hwarn, ?_⟩
  intro hw
  rcases hwarn with h | ⟨h, _⟩
  · exact h
  · rw [hw] at h; exact absurd h (by decide)

/-- Counterexample to C6: the empty event `{}` invoked at clock reading 2024-03-05T00:00:00Z
and again, in the state the first invocation left, a day later, logs `05 Mar 2024` and then
`06 Mar 2024`; and the event with `date` the string `not-a-date`, invoked on a fresh process
and again in the state the first invocation left, writes the deprecation warning of moment
the first time and not the second. -/
theorem second_invocation_differs :
    (loggedBy (lambdaHandler (momentJs utcHost) (.object []) .undefined)
        (freshProc 1709596800000) = [.string "05 Mar 2024"]
      ∧ loggedBy (lambdaHandler (momentJs utcHost) (.object []) .undefined)
          (advanceClock (lambdaHandler (momentJs utcHost) (.object []) .undefined
            (freshProc 1709596800000)).2 1709683200000) = [.string "06 Mar 2024"]
      ∧ "05 Mar 2024" ≠ "06 Mar 2024")
    ∧ ((warnedBy (lambdaHandler (momentJs utcHost) (eventWithDate (.string "not-a-date"))
          .undefined) (freshProc 0)).length = 1
      ∧ (warnedBy (lambdaHandler (momentJs utcHost) (eventWithDate (.string "not-a-date"))
          .undefined)
          (lambdaHandler (momentJs utcHost) (eventWithDate (.string "not-a-date")) .undefined
            (freshProc 0)).2).length = 0) :=
  ⟨⟨rfl, rfl, by decide⟩, rfl, rfl⟩

/-- C6, amended: two invocations on the same event log the same line with `console.log`
whenever the clock reads the same at both, or the event is `null` or `undefined`, or its
`date` value is one that `moment` builds without the clock (`null`, a boolean, a number, a
string, a `Date`), whatever else the two process states are.  The state that an invocation
leaves behind and that a later one sees is the deprecation flag of moment: with the flag in
the same state at both invocations the lines written with `console.warn` are the same too,
and once the flag is set no invocation writes any. -/
theorem lambdaHandler_same_output_twice (H : Host) (event context₁ context₂ : JsValue)
    (p₁ p₂ : Proc Runtime)
    (h : p₁.lib.now = p₂.lib.now ∨ event.isNullish = true
      ∨ readsClock (event.get "date") = false) :
    loggedBy (lambdaHandler (momentJs H) event context₁) p₁
        = loggedBy (lambdaHandler (momentJs H) event context₂) p₂
      ∧ (p₁.lib.warned = p₂.lib.warned →
          warnedBy (lambdaHandler (momentJs H) event context₁) p₁
            = warnedBy (lambdaHandler (momentJs H) event context₂) p₂)
      ∧ (p₂.lib.warned = true →
          warnedBy (lambdaHandler (momentJs H) event context₂) p₂ = []) := by
  by_cases hn : event.isNullish = true
  · obtain ⟨e₁, he₁, hr₁⟩ := lambdaHandler_nullish H event context₁ p₁ hn
    obtain ⟨e₂, he₂, hr₂⟩ := lambdaHandler_nullish H event context₂ p₂ hn
    have he : e₁ = e₂ := by rw [he₁] at he₂; injection he₂
    subst he
    have hw₁ : warnedBy (lambdaHandler (momentJs H) event context₁) p₁ = [] :=
      warnedBy_of_append _ p₁ [] (by rw [hr₁]; simp)
    have hw₂ : warnedBy (lambdaHandler (momentJs H) event context₂) p₂ = [] :=
      warnedBy_of_append _ p₂ [] (by rw [hr₂]; simp)
    refine ⟨?_, fun _ => by rw [hw₁, hw₂], fun _ => hw₂⟩
    rw [loggedBy_of_append _ p₁ [e₁] (by rw [hr₁]),
      loggedBy_of_append _ p₂ [e₁] (by rw [hr₂])]
  · have hn' : event.isNullish = false := by simpa using hn
    have hr₁ := lambdaHandler_momentJs H event context₁ p₁ hn'
    have hr₂ := lambdaHandler_momentJs H event context₂ p₂ hn'
    have hres : (createLocal H (event.get "date") p₁.lib).result
        = (createLocal H (event.get "date") p₂.lib).result := by
      rcases h with h | h | h
      · exact createLocal_same_clock H _ p₁.lib p₂.lib h
      · exact absurd h hn
      · exact createLocal_clock_free H _ p₁.lib p₂.lib h
    have hw₁ : warnedBy (lambdaHandler (momentJs H) event context₁) p₁
        = (createLocal H (event.get "date") p₁.lib).warnings :=
      warnedBy_of_append _ p₁ _ (by rw [hr₁])
    have hw₂ : warnedBy (lambdaHandler (momentJs H) event context₂) p₂
        = (createLocal H (event.get "date") p₂.lib).warnings :=
      warnedBy_of_append _ p₂ _ (by rw [hr₂])
    refine ⟨?_, ?_, ?_⟩
    · rw [loggedBy_of_append _ p₁ _ (by rw [hr₁]), loggedBy_of_append _ p₂ _ (by rw [hr₂]),
        hres]
    · intro hf
      rw [hw₁, hw₂, createLocal_same_flag H _ p₁.lib p₂.lib hf]
    · intro hf
      rw [hw₂]
      rcases createLocal_warnings H (event.get "date") p₂.lib with ⟨h0, _⟩ | ⟨h1, _⟩
      · exact h0
      · rw [hf] at h1; exact absurd h1 (by decide)

/-- Witness of C6, amended: the string `not-a-date`, invoked on a fresh process and again, in
the state the first invocation left, a day later. -/
theorem lambdaHandler_same_output_twice_witness :
    (readsClock ((eventWithDate (.string "not-a-date")).get "date") = false)
      ∧ loggedBy (lambdaHandler (momentJs utcHost) (eventWithDate (.string "not-a-date"))
          .undefined) (freshProc 1709596800000)
        = loggedBy (lambdaHandler (momentJs utcHost) (eventWithDate (.string "not-a-date"))
            .undefined)
            (advanceClock (lambdaHandler (momentJs utcHost)
              (eventWithDate (.string "not-a-date")) .undefined
              (freshProc 1709596800000)).2 1709683200000)
      ∧ ((freshProc 1709596800000).lib.warned
            = (advanceClock (lambdaHandler (momentJs utcHost)
                (eventWithDate (.string "not-a-date")) .undefined
                (freshProc 1709596800000)).2 1709683200000).lib.warned →
          warnedBy (lambdaHandler (momentJs utcHost) (eventWithDate (.string "not-a-date"))
              .undefined) (freshProc 1709596800000)
            = warnedBy (lambdaHandler (momentJs utcHost)
                (eventWithDate (.string "not-a-date")) .undefined)
                (advanceClock (lambdaHandler (momentJs utcHost)
                  (eventWithDate (.string "not-a-date")) .undefined
                  (freshProc 1709596800000)).2 1709683200000))
      ∧ ((advanceClock (lambdaHandler (momentJs utcHost)
              (eventWithDate (.string "not-a-date")) .undefined
              (freshProc 1709596800000)).2 1709683200000).lib.warned = true →
          warnedBy (lambdaHandler (momentJs utcHost) (eventWithDate (.string "not-a-date"))
              .undefined)
              (advanceClock (lambdaHandler (momentJs utcHost)
                (eventWithDate (.string "not-a-date")) .undefined
                (freshProc 1709596800000)).2 1709683200000) = []) :=
  ⟨rfl, lambdaHandler_same_output_twice utcHost (eventWithDate (.string "not-a-date"))
    .undefined .undefined (freshProc 1709596800000)
    (advanceClock (lambdaHandler (momentJs utcHost) (eventWithDate (.string "not-a-date"))
      .undefined (freshProc 1709596800000)).2 1709683200000) (Or.inr (Or.inr rfl))⟩

/-- Counterexample to C8: the numeric epoch value 253402300800000 (10000-01-01T00:00:00Z) is
parseable as a date, and on a UTC host the line logged for it is `01 Jan 10000`, twelve
characters with a five-digit year. -/
theorem epoch_of_year_10000_breaks_pattern :
    (createLocal utcHost (.number 253402300800000) (freshProc 0).lib).result
        = .ok ⟨some 253402300800000, .en⟩
      ∧ (lambdaHandler (momentJs utcHost) (eventWithDate (.number 253402300800000))
          .undefined (freshProc 0)).2.stdout = [.string "01 Jan 10000"]
      ∧ conformsDDMMMYYYY "01 Jan 10000" = false :=
  ⟨rfl, rfl, by decide⟩

/-- C8, amended: for every event whose `date` value `moment` parses to a valid moment, the
one line logged is two decimal digits naming a day 01..31, a space, one of the twelve month
abbreviations, a space, and the year on four digits or more, behind a minus sign when
negative; when the local year of the parsed instant lies in 0..9999 it is exactly the 11
characters of `DD MMM YYYY`. -/
theorem lambdaHandler_formatted_result_pattern (H : Host) (event context : JsValue)
    (p : Proc Runtime) (t : Int) (hev : event.isNullish = false)
    (hvalid : (createLocal H (event.get "date") p.lib).result = .ok ⟨some t, .en⟩) :
    (lambdaHandler (momentJs H) event context p).2.stdout
        = p.stdout ++ [.string (formatMoment H ⟨some t, .en⟩ "DD MMM YYYY")]
      ∧ conformsExpandedYear (formatMoment H ⟨some t, .en⟩ "DD MMM YYYY") = true
      ∧ ((0 ≤ YearFromTime (LocalTime H.LocalTZA t)
            ∧ YearFromTime (LocalTime H.LocalTZA t) ≤ 9999) →
          conformsDDMMMYYYY (formatMoment H ⟨some t, .en⟩ "DD MMM YYYY") = true) := by
  refine ⟨?_, conformsExpandedYear_formatMoment H t, conformsDDMMMYYYY_formatMoment H t⟩
  rw [lambdaHandler_momentJs H event context p hev, hvalid]
  rfl

/-- Witness of C8, amended: the numeric epoch value of 2024-03-05T00:00:00Z on a UTC host. -/
theorem lambdaHandler_formatted_result_pattern_witness :
    (createLocal utcHost ((eventWithDate (.number 1709596800000)).get "date")
        (freshProc 0).lib).result = .ok ⟨some 1709596800000, .en⟩
      ∧ (lambdaHandler (momentJs utcHost) (eventWithDate (.number 1709596800000)) .undefined
          (freshProc 0)).2.stdout
        = (freshProc 0).stdout
            ++ [.string (formatMoment utcHost ⟨some 1709596800000, .en⟩ "DD MMM YYYY")]
      ∧ conformsExpandedYear (formatMoment utcHost ⟨some 1709596800000, .en⟩ "DD MMM YYYY")
          = true
      ∧ ((0 ≤ YearFromTime (LocalTime utcHost.LocalTZA 1709596800000)
            ∧ YearFromTime (LocalTime utcHost.LocalTZA 1709596800000) ≤ 9999) →
          conformsDDMMMYYYY (formatMoment utcHost ⟨some 1709596800000, .en⟩ "DD MMM YYYY")
            = true) :=
  ⟨rfl, lambdaHandler_formatted_result_pattern utcHost (eventWithDate (.number 1709596800000))
    .undefined (freshProc 0) 1709596800000 rfl rfl⟩

/-- A moment-like object whose `_d` is no `Date` makes `moment` throw: for the date value
`{"_isAMomentObject": true, "_d": 5}` the handler logs the `TypeError` of the call
`config._d.getTime()`, and the promise fulfils all the same. -/
theorem moment_like_date_is_caught :
    lambdaHandler (momentJs utcHost)
        (eventWithDate (.object [("_isAMomentObject", .bool true), ("_d", .number 5)]))
        .undefined (freshProc 0)
      = (.fulfilled .undefined,
          { freshProc 0 with stdout :=
              [.error "TypeError" "config._d.getTime is not a function"] }) :=
  rfl

end DateFormatter
